import Mathlib

/-!
# dsock: message-socket dispatch, the LZ4 compression layer and the logging layer

A shallow embedding of `msock.c`, `mlog.c` and `lz4.c`.

* Memory regions are the lists of bytes they hold; a segment `(iov_base, iov_len)`
  is the list of the `iov_len` bytes at `iov_base`.
* Everything outside the three files (the handle registry, the sockets below a
  layer, the LZ4 frame library, the allocator) is a parameter: the registry and
  the sockets below act on `Sys` (errno and their own state), the codec is a
  record of functions, the allocator is a script of outcomes.
* Every call that leaves the three files is recorded in `World.log`, so that
  "is invoked exactly once" and "is not invoked" are statements about the log.
* `dsock_assert` failing aborts the process: functions that contain one return
  `none` as their value in that case.
-/

namespace Dsock

/-! ## Data model -/

abbrev Byte := UInt8
abbrev Bytes := List Byte

/-- One segment of a scatter/gather array: the bytes of the region it names
(`iov_len` is the length of the list). -/
abbrev iovec := Bytes

/-- Modelled from the spec: the capability tokens made by `dsock_unique_id`
(the macro is in utils.h), process-wide unique identities compared by identity.
`foreign n` stands for the tokens of layers outside these files. -/
inductive TypeId where
  | msock_type
  | lz4_type
  | mlog_type
  | foreign (n : Nat)
  deriving DecidableEq, Repr

/-- Linux values of the errno constants the three files use. -/
def ENOMEM : Int := 12
def EFAULT : Int := 14
def EMSGSIZE : Int := 90
def ENOTSUP : Int := 95
def ECONNRESET : Int := 104

/-- What the external collaborators (registry, sockets below) see and change. -/
structure Sys (σ : Type) where
  errno : Int
  st : σ

/-- What a receive implementation hands back: its return value and the bytes
it stored, counted from the first byte of the first segment. -/
structure Received where
  sz : Int
  data : Bytes

/-- The Message-Socket descriptor `struct msock_vfs` (msock.h): the two
function pointers of a layer implementation. -/
structure msock_vfs (σ : Type) where
  msendv : List iovec → Int → Sys σ → Int × Sys σ
  mrecvv : List iovec → Int → Sys σ → Received × Sys σ

/-- The object of the logging layer (`struct mlog_sock`); the two descriptors
are fixed function tables and carry no data. -/
structure mlog_sock where
  s : Int
  h : Int
  deriving DecidableEq, Repr

/-- The object of the compression layer (`struct lz4_sock`); `none` is a NULL
buffer pointer, `κ` is the state of the LZ4 decompression context. -/
structure lz4_sock (κ : Type) where
  s : Int
  outbuf : Option Bytes
  outlen : Nat
  inbuf : Option Bytes
  inlen : Nat
  dctx : κ

/-- What `hquery(h, type)` points at, by token. -/
def Cap (σ κ : Type) : TypeId → Type
  | TypeId.msock_type => msock_vfs σ
  | TypeId.lz4_type => lz4_sock κ
  | TypeId.mlog_type => mlog_sock
  | TypeId.foreign _ => Unit

/-- Which buffer of the compression layer a reallocation is for. -/
inductive Buf where
  | outbuf
  | inbuf
  deriving DecidableEq, Repr

/-- Calls that leave the three files, in the order they are made. -/
inductive Event where
  | hquery (h : Int) (t : TypeId)
  | hcreate
  | hclose (h : Int)
  | vfs_msendv (h : Int) (iov : List iovec) (deadline : Int)
  | vfs_mrecvv (h : Int) (iov : List iovec) (deadline : Int)
  | malloc (ok : Bool)
  | realloc (b : Buf) (n : Nat) (ok : Bool)
  | free
  | LZ4F_createDecompressionContext
  | LZ4F_freeDecompressionContext
  | LZ4F_compressFrame
  | LZ4F_getFrameInfo
  | LZ4F_decompress
  deriving DecidableEq, Repr

/-- Modelled from the spec: the handle registry (hcreate, hquery, hclose of
handle.c), an external collaborator. `hquery h t` is absent (`none`) or the
capability; all three may change errno and the registry state. -/
structure Env (σ κ : Type) where
  hquery : (h : Int) → (t : TypeId) → Sys σ → Option (Cap σ κ t) × Sys σ
  hcreate : Sys σ → Int × Sys σ
  hclose : Int → Sys σ → Int × Sys σ

/-- The state of the process. -/
structure World (σ : Type) where
  sys : Sys σ
  /-- Outcomes of the coming malloc/realloc calls (`false` = NULL); when the
  script is used up, allocations succeed. -/
  allocs : List Bool
  /-- Contents of freshly allocated memory, by offset. -/
  junk : Nat → Byte
  /-- Number of live heap blocks. -/
  live : Nat
  /-- Everything written to stderr. -/
  stderr : List Char
  log : List Event

variable {σ κ : Type}

def World.record (w : World σ) (e : Event) : World σ :=
  { w with log := w.log ++ [e] }

def World.setErrno (w : World σ) (e : Int) : World σ :=
  { w with sys := { w.sys with errno := e } }

/-! ## iov.c (not among the three files) -/

/-- Modelled from the spec: `iov_size` of iov.c, the total length of a
segmented buffer, the sum of the segment lengths. -/
def iov_size (iov : List iovec) : Nat :=
  (iov.map List.length).sum

/-- Modelled from the spec: `iov_copyallfrom` of iov.c, which copies the
segments one after the other into the contiguous buffer `dst`; the value is
the buffer afterwards. -/
def iov_copyallfrom (dst : Bytes) (iov : List iovec) : Bytes :=
  iov.flatten ++ dst.drop (iov_size iov)

/-- Storing `data` into the segments from the first byte of the first segment
on; bytes beyond `data`, and lengths, are kept. -/
def iov_store : List iovec → Bytes → List iovec
  | [], _ => []
  | seg :: rest, data =>
      (data.take seg.length ++ seg.drop data.length) :: iov_store rest (data.drop seg.length)

/-- Modelled from the spec: `iov_copyallto` of iov.c, which scatters a
contiguous buffer of `iov_size` bytes into the segments. -/
def iov_copyallto (iov : List iovec) (src : Bytes) : List iovec :=
  iov_store iov src

/-! ## The registry and the descriptors, with their calls recorded -/

def hquery (env : Env σ κ) (h : Int) (t : TypeId) (w : World σ) :
    Option (Cap σ κ t) × World σ :=
  let r := env.hquery h t w.sys
  (r.1, { w with sys := r.2, log := w.log ++ [Event.hquery h t] })

def hclose (env : Env σ κ) (h : Int) (w : World σ) : Int × World σ :=
  let r := env.hclose h w.sys
  (r.1, { w with sys := r.2, log := w.log ++ [Event.hclose h] })

def hcreate (env : Env σ κ) (w : World σ) : Int × World σ :=
  let r := env.hcreate w.sys
  (r.1, { w with sys := r.2, log := w.log ++ [Event.hcreate] })

/-- The call `m->msendv(m, iov, iovlen, deadline)` through the descriptor `m`
of handle `h`. -/
def vfs_msendv (m : msock_vfs σ) (h : Int) (iov : List iovec) (deadline : Int)
    (w : World σ) : Int × World σ :=
  let r := m.msendv iov deadline w.sys
  (r.1, { w with sys := r.2, log := w.log ++ [Event.vfs_msendv h iov deadline] })

/-- The call `m->mrecvv(m, iov, iovlen, deadline)` through the descriptor `m`
of handle `h`; the value carries the segments as the call leaves them. -/
def vfs_mrecvv (m : msock_vfs σ) (h : Int) (iov : List iovec) (deadline : Int)
    (w : World σ) : (Int × List iovec) × World σ :=
  let r := m.mrecvv iov deadline w.sys
  ((r.1.sz, iov_store iov r.1.data),
    { w with sys := r.2, log := w.log ++ [Event.vfs_mrecvv h iov deadline] })

/-! ## msock.c -/

def msend (env : Env σ κ) (s : Int) (buf : Bytes) (len : Nat) (deadline : Int)
    (w : World σ) : Int × World σ :=
  match hquery env s TypeId.msock_type w with
  | (none, w1) => (-1, w1)
  | (some m, w1) => vfs_msendv m s [buf.take len] deadline w1

/-- `mrecv`; the value carries the buffer as the call leaves it. -/
def mrecv (env : Env σ κ) (s : Int) (buf : Bytes) (len : Nat) (deadline : Int)
    (w : World σ) : (Int × Bytes) × World σ :=
  match hquery env s TypeId.msock_type w with
  | (none, w1) => ((-1, buf), w1)
  | (some m, w1) =>
      let r := vfs_mrecvv m s [buf.take len] deadline w1
      ((r.1.1, r.1.2.flatten ++ buf.drop len), r.2)

def msendv (env : Env σ κ) (s : Int) (iov : List iovec) (deadline : Int)
    (w : World σ) : Int × World σ :=
  match hquery env s TypeId.msock_type w with
  | (none, w1) => (-1, w1)
  | (some m, w1) => vfs_msendv m s iov deadline w1

def mrecvv (env : Env σ κ) (s : Int) (iov : List iovec) (deadline : Int)
    (w : World σ) : (Int × List iovec) × World σ :=
  match hquery env s TypeId.msock_type w with
  | (none, w1) => ((-1, iov), w1)
  | (some m, w1) => vfs_mrecvv m s iov deadline w1

/-! ## The allocator and stderr -/

/-- The outcome of the next allocation request and the script that remains. -/
def World.nextAlloc (w : World σ) : Bool × List Bool :=
  match w.allocs with
  | [] => (true, [])
  | b :: rest => (b, rest)

/-- Fresh memory: `n` bytes of whatever the heap held, from offset `off`. -/
def World.fresh (w : World σ) (off n : Nat) : Bytes :=
  (List.range n).map fun i => w.junk (off + i)

/-- `malloc(n)`: NULL (`none`) or a block of `n` uninitialised bytes. -/
def malloc (n : Nat) (w : World σ) : Option Bytes × World σ :=
  if w.nextAlloc.1 then
    (some (w.fresh 0 n),
      { w with allocs := w.nextAlloc.2, live := w.live + 1, log := w.log ++ [Event.malloc true] })
  else
    (none, { w with allocs := w.nextAlloc.2, log := w.log ++ [Event.malloc false] })

/-- `malloc(sizeof(struct ...))` for a layer object, whose fields the caller
fills in: `false` is NULL. -/
def malloc_obj (w : World σ) : Bool × World σ :=
  ((malloc 0 w).1.isSome, (malloc 0 w).2)

/-- `realloc(p, n)` for buffer `b`: NULL with the old block untouched, or a
block of `n` bytes that starts with the old contents. -/
def realloc (b : Buf) (p : Option Bytes) (n : Nat) (w : World σ) : Option Bytes × World σ :=
  if w.nextAlloc.1 then
    let old := (p.getD []).take n
    (some (old ++ w.fresh old.length (n - old.length)),
      { w with allocs := w.nextAlloc.2, live := if p.isSome then w.live else w.live + 1,
               log := w.log ++ [Event.realloc b n true] })
  else
    (none, { w with allocs := w.nextAlloc.2, log := w.log ++ [Event.realloc b n false] })

/-- `free(p)`; `isNull` says that `p` is NULL, for which free does nothing. -/
def free (isNull : Bool) (w : World σ) : World σ :=
  { w with live := if isNull then w.live else w.live - 1, log := w.log ++ [Event.free] }

/-- `fprintf(stderr, ...)` with the formatted text; stderr is not among the
recorded calls, its output is kept in `World.stderr`. -/
def fprintf (w : World σ) (text : List Char) : World σ :=
  { w with stderr := w.stderr ++ text }

/-- Decimal digits of a natural number. -/
def fmt_u (n : Nat) : List Char := Nat.toDigits 10 n

/-- `%d` of an int. -/
def fmt_d (i : Int) : List Char :=
  if i < 0 then '-' :: fmt_u i.natAbs else fmt_u i.toNat

/-- `%-4d`: left-justified in a field of at least 4 characters. -/
def fmt_d_left4 (i : Int) : List Char :=
  fmt_d i ++ List.replicate (4 - (fmt_d i).length) ' '

/-- `%8zu`: right-justified in a field of at least 8 characters. -/
def fmt_zu_right8 (n : Nat) : List Char :=
  List.replicate (8 - (fmt_u n).length) ' ' ++ fmt_u n

/-- `%02x` of `(int)(uint8_t)b`: two lower-case hexadecimal digits. -/
def fmt_02x (b : Byte) : List Char :=
  [Nat.digitChar (b.toNat / 16), Nat.digitChar (b.toNat % 16)]

/-- The hexadecimal encoding of a byte string, two digits per byte. -/
def hex (bs : Bytes) : List Char := bs.flatMap fmt_02x

/-! ## mlog.c -/

/-- A pointer returned by a layer's query function: to the object itself or to
the Message-Socket descriptor embedded in it (`&obj->mvfs`). -/
inductive Ptr (α : Type) where
  | obj (o : α)
  | mvfs (o : α)

def mlog_hquery (obj : mlog_sock) (type : TypeId) (w : World σ) :
    Option (Ptr mlog_sock) × World σ :=
  if type = TypeId.msock_type then (some (Ptr.mvfs obj), w)
  else if type = TypeId.mlog_type then (some (Ptr.obj obj), w)
  else (none, w.setErrno ENOTSUP)

/-- `mlog_hclose`; the value is `none` when the assertion `rc == 0` fails. -/
def mlog_hclose (env : Env σ κ) (obj : mlog_sock) (w : World σ) : Option Unit × World σ :=
  let r := hclose env obj.s w
  if r.1 = 0 then (some (), free false r.2) else (none, r.2)

/-- `mlog_start`; the value carries the object when one is left allocated. -/
def mlog_start (env : Env σ κ) (s : Int) (w : World σ) : (Int × Option mlog_sock) × World σ :=
  let q := hquery env s TypeId.msock_type w
  match q.1 with
  | none => ((-1, none), q.2)
  | some _ =>
    let ma := malloc_obj q.2
    match ma.1 with
    | false => ((-1, none), ma.2.setErrno ENOMEM)
    | true =>
      let r := hcreate env ma.2
      if r.1 < 0 then
        let err := r.2.sys.errno
        ((-1, none), (free false r.2).setErrno err)
      else ((r.1, some { s := s, h := r.1 }), r.2)

def mlog_stop (env : Env σ κ) (s : Int) (w : World σ) : Int × World σ :=
  match hquery env s TypeId.mlog_type w with
  | (none, w1) => (-1, w1)
  | (some obj, w1) =>
    let u := mlog_sock.s obj
    (u, free false w1)

/-- The two nested loops of `mlog_msendv`: every byte of every segment. -/
def mlog_send_dump : List iovec → List Char
  | [] => []
  | seg :: rest => seg.flatMap fmt_02x ++ mlog_send_dump rest

def mlog_msendv (env : Env σ κ) (obj : mlog_sock) (iov : List iovec) (deadline : Int)
    (w : World σ) : Int × World σ :=
  let len := iov_size iov
  let w1 := fprintf w ("handle: ".toList ++ fmt_d_left4 obj.h ++ " send ".toList ++
    fmt_zu_right8 len ++ "B: 0x".toList)
  let w2 := fprintf w1 (mlog_send_dump iov)
  let w3 := fprintf w2 ['\n']
  msendv env obj.s iov deadline w3

/-- The inner loop of `mlog_mrecvv` over one segment: `j != iov_len && toprint`;
the value is the text printed and what is left of `toprint`. -/
def mlog_recv_dump_seg : Bytes → Nat → List Char × Nat
  | [], t => ([], t)
  | _ :: _, 0 => ([], 0)
  | b :: bs, t + 1 =>
      let r := mlog_recv_dump_seg bs t
      (fmt_02x b ++ r.1, r.2)

/-- The outer loop of `mlog_mrecvv`: `i != iovlen && toprint`. -/
def mlog_recv_dump : List iovec → Nat → List Char
  | [], _ => []
  | _ :: _, 0 => []
  | seg :: rest, t + 1 =>
      let r := mlog_recv_dump_seg seg (t + 1)
      r.1 ++ mlog_recv_dump rest r.2

/-- `mlog_mrecvv`; the value carries the segments as the call leaves them. -/
def mlog_mrecvv (env : Env σ κ) (obj : mlog_sock) (iov : List iovec) (deadline : Int)
    (w : World σ) : (Int × List iovec) × World σ :=
  let r := mrecvv env obj.s iov deadline w
  let sz := r.1.1
  if sz < 0 then ((-1, r.1.2), r.2)
  else
    let w1 := fprintf r.2 ("handle: ".toList ++ fmt_d_left4 obj.h ++ " recv ".toList ++
      fmt_zu_right8 sz.toNat ++ "B: 0x".toList)
    let toprint := sz.toNat
    let w2 := fprintf w1 (mlog_recv_dump r.1.2 toprint)
    let w3 := fprintf w2 ['\n']
    ((sz, r.1.2), w3)

/-! ## The LZ4 frame library (lz4frame.h), an external primitive -/

/-- What `LZ4F_getFrameInfo` reports: whether its return value is an error
code, `info.contentSize` (0 when the header declares no content size), the
number of source bytes it consumed, and the context it leaves. -/
structure FrameInfo (κ : Type) where
  isError : Bool
  contentSize : Nat
  consumed : Nat
  dctx : κ

/-- What `LZ4F_decompress` reports: its return value (0 when the frame is
fully decoded), the bytes it stored in the destination, the number of source
bytes it consumed, and the context it leaves. -/
structure Decompressed (κ : Type) where
  ec : Nat
  dst : Bytes
  srclen : Nat
  dctx : κ

/-- The functions of the LZ4 frame library that lz4.c calls. `compressFrame
dstCapacity src contentSize` is the frame written, or `none` for an error code;
`createDecompressionContext` is `none` for an error code;
`freeDecompressionContext` says whether its return value is an error code. -/
structure LZ4F (κ : Type) where
  compressFrameBound : Nat → Nat
  compressFrame : Nat → Bytes → Nat → Option Bytes
  createDecompressionContext : Option κ
  freeDecompressionContext : κ → Bool
  getFrameInfo : κ → Bytes → FrameInfo κ
  decompress : κ → Nat → Bytes → Decompressed κ

/-! ## lz4.c -/

def lz4_hquery (obj : lz4_sock κ) (type : TypeId) (w : World σ) :
    Option (Ptr (lz4_sock κ)) × World σ :=
  if type = TypeId.msock_type then (some (Ptr.mvfs obj), w)
  else if type = TypeId.lz4_type then (some (Ptr.obj obj), w)
  else (none, w.setErrno ENOTSUP)

/-- `lz4_hclose`; the value is `none` when an assertion fails. -/
def lz4_hclose (env : Env σ κ) (lz : LZ4F κ) (obj : lz4_sock κ) (w : World σ) :
    Option Unit × World σ :=
  let w1 := w.record Event.LZ4F_freeDecompressionContext
  if lz.freeDecompressionContext obj.dctx then (none, w1)
  else
    let w2 := free obj.inbuf.isNone w1
    let w3 := free obj.outbuf.isNone w2
    let r := hclose env obj.s w3
    if r.1 = 0 then (some (), free false r.2) else (none, r.2)

/-- `lz4_stop`; the value is `none` when the assertion fails. -/
def lz4_stop (env : Env σ κ) (lz : LZ4F κ) (s : Int) (deadline : Int) (w : World σ) :
    Option Int × World σ :=
  match hquery env s TypeId.lz4_type w with
  | (none, w1) => (some (-1), w1)
  | (some o, w1) =>
    let obj : lz4_sock κ := o
    let w2 := w1.record Event.LZ4F_freeDecompressionContext
    if lz.freeDecompressionContext obj.dctx then (none, w2)
    else
      let w3 := free obj.inbuf.isNone w2
      let w4 := free obj.outbuf.isNone w3
      let u := obj.s
      (some u, free false w4)

/-- `lz4_start`. `err0` is the indeterminate value the local `int err` holds
while nothing has been assigned to it. The value is `none` when the assertion
fails, else the return value and the object when one is left allocated. -/
def lz4_start (env : Env σ κ) (lz : LZ4F κ) (s : Int) (err0 : Int) (w : World σ) :
    Option (Int × Option (lz4_sock κ)) × World σ :=
  let q := hquery env s TypeId.msock_type w
  match q.1 with
  | none =>
    let err := q.2.sys.errno
    (some (-1, none), q.2.setErrno err)
  | some _ =>
    let ma := malloc_obj q.2
    match ma.1 with
    | false =>
      let w3 := ma.2.setErrno ENOMEM
      (some (-1, none), w3.setErrno err0)
    | true =>
      let w3 := ma.2.record Event.LZ4F_createDecompressionContext
      match lz.createDecompressionContext with
      | none =>
        let err := EFAULT
        (some (-1, none), (free false w3).setErrno err)
      | some dctx =>
        let obj : lz4_sock κ :=
          { s := s, outbuf := none, outlen := 0, inbuf := none, inlen := 0, dctx := dctx }
        let r := hcreate env w3
        if r.1 < 0 then
          let err := r.2.sys.errno
          let w4 := r.2.record Event.LZ4F_freeDecompressionContext
          if lz.freeDecompressionContext obj.dctx then (none, w4)
          else (some (-1, none), (free false w4).setErrno err)
        else (some (r.1, some obj), r.2)

/-- The block "Adjust the buffer size as needed" that opens `lz4_msendv` (for
`outbuf`, `outlen`) and `lz4_mrecvv` (for `inbuf`, `inlen`): `none` when
realloc fails, else the buffer pointer and the capacity afterwards. -/
def lz4_adjust (b : Buf) (buf : Option Bytes) (cur maxlen : Nat) (w : World σ) :
    Option (Option Bytes × Nat) × World σ :=
  if cur < maxlen then
    let ra := realloc b buf maxlen w
    match ra.1 with
    | none => (none, ra.2)
    | some newbuf => (some (some newbuf, maxlen), ra.2)
  else (some (buf, cur), w)

/-- `lz4_msendv`; the value is the return value (`none` when an assertion
fails) and the object as the call leaves it. -/
def lz4_msendv (env : Env σ κ) (lz : LZ4F κ) (obj : lz4_sock κ) (iov : List iovec)
    (deadline : Int) (w : World σ) : (Option Int × lz4_sock κ) × World σ :=
  let len := iov_size iov
  let maxlen := lz.compressFrameBound len
  let g := lz4_adjust Buf.outbuf obj.outbuf obj.outlen maxlen w
  match g.1 with
  | none => ((some (-1), obj), g.2.setErrno ENOMEM)
  | some grown =>
    let obj1 : lz4_sock κ := { obj with outbuf := grown.1, outlen := grown.2 }
    let ma := malloc len g.2
    match ma.1 with
    | none => ((some (-1), obj1), ma.2.setErrno ENOMEM)
    | some buf0 =>
      let buf := iov_copyallfrom buf0 iov
      let w3 := ma.2.record Event.LZ4F_compressFrame
      match lz.compressFrame obj1.outlen (buf.take len) len with
      | none => ((none, obj1), w3)
      | some frame =>
        let dstlen := frame.length
        let obj2 : lz4_sock κ :=
          { obj1 with outbuf := some (frame ++ (obj1.outbuf.getD []).drop dstlen) }
        if dstlen ≤ obj2.outlen then
          let w4 := free false w3
          let r := msend env obj2.s (obj2.outbuf.getD []) dstlen deadline w4
          ((some r.1, obj2), r.2)
        else ((none, obj2), w3)

/-- `lz4_mrecvv`; the value is the return value (`none` when an assertion
fails), the segments and the object as the call leaves them. -/
def lz4_mrecvv (env : Env σ κ) (lz : LZ4F κ) (obj : lz4_sock κ) (iov : List iovec)
    (deadline : Int) (w : World σ) : (Option Int × List iovec × lz4_sock κ) × World σ :=
  let len := iov_size iov
  let maxlen := lz.compressFrameBound len
  let g := lz4_adjust Buf.inbuf obj.inbuf obj.inlen maxlen w
  match g.1 with
  | none => ((some (-1), iov, obj), g.2.setErrno ENOMEM)
  | some grown =>
    let obj1 : lz4_sock κ := { obj with inbuf := grown.1, inlen := grown.2 }
    let r := mrecv env obj1.s (obj1.inbuf.getD []) obj1.inlen deadline g.2
    let sz := r.1.1
    let obj2 : lz4_sock κ := { obj1 with inbuf := obj1.inbuf.map fun _ => r.1.2 }
    if sz < 0 then ((some (-1), iov, obj2), r.2)
    else
      let src := r.1.2.take sz.toNat
      let w2 := r.2.record Event.LZ4F_getFrameInfo
      let info := lz.getFrameInfo obj2.dctx src
      let infolen := info.consumed
      let obj3 : lz4_sock κ := { obj2 with dctx := info.dctx }
      if info.isError then ((none, iov, obj3), w2)
      else if info.contentSize = 0 then ((some (-1), iov, obj3), w2.setErrno ECONNRESET)
      else if info.contentSize > len then ((some (-1), iov, obj3), w2.setErrno EMSGSIZE)
      else
        let ma := malloc len w2
        match ma.1 with
        | none => ((some (-1), iov, obj3), ma.2.setErrno ENOMEM)
        | some buf0 =>
          let w4 := ma.2.record Event.LZ4F_decompress
          let d := lz.decompress obj3.dctx len (src.drop infolen)
          let written := d.dst.take len
          let dstlen := written.length
          let buf := written ++ buf0.drop dstlen
          let obj4 : lz4_sock κ := { obj3 with dctx := d.dctx }
          if d.ec ≠ 0 then ((none, iov, obj4), w4)
          else if d.srclen ≠ sz.toNat - infolen then ((none, iov, obj4), w4)
          else
            let iov1 := iov_copyallto iov buf
            ((some (dstlen : Int), iov1, obj4), free false w4)

/-! ## A concrete stack to run the layers on

A pipe that queues whole messages, a registry with three handles, and a
codec that stores the payload behind a two-byte header. -/

def ETIMEDOUT : Int := 110

/-- A message pipe: a send queues the gathered message, a receive takes the
oldest message out and fails with EMSGSIZE when it does not fit. -/
def pipe_vfs : msock_vfs (List Bytes) where
  msendv := fun iov _ sys => (0, { sys with st := sys.st ++ [iov.flatten] })
  mrecvv := fun iov _ sys =>
    match sys.st with
    | [] => ({ sz := -1, data := [] }, { sys with errno := ETIMEDOUT })
    | msg :: rest =>
      if msg.length ≤ iov_size iov then
        ({ sz := msg.length, data := msg }, { sys with st := rest })
      else ({ sz := -1, data := [] }, { errno := EMSGSIZE, st := rest })

/-- A registry in which handle 1 is the pipe, handle 2 a compression layer
with object `lz` and handle 3 a logging layer with object `ml`; hclose succeeds
on these three, hcreate hands out handle 4. -/
def demoEnv (lz : lz4_sock Unit) (ml : mlog_sock) : Env (List Bytes) Unit where
  hquery := fun h t sys =>
    match t with
    | TypeId.msock_type =>
      if h = 1 then (some pipe_vfs, sys) else (none, { sys with errno := ENOTSUP })
    | TypeId.lz4_type =>
      if h = 2 then (some lz, sys) else (none, { sys with errno := ENOTSUP })
    | TypeId.mlog_type =>
      if h = 3 then (some ml, sys) else (none, { sys with errno := ENOTSUP })
    | TypeId.foreign _ => (none, { sys with errno := ENOTSUP })
  hcreate := fun sys => (4, sys)
  hclose := fun h sys => if 1 ≤ h ∧ h ≤ 3 then (0, sys) else (-1, sys)

/-- A codec that stores: the frame is a flag byte, then the content size in
one byte when it is not zero (as in LZ4, content size 0 means not declared),
then the payload. -/
def storeCodec : LZ4F Unit where
  compressFrameBound := fun n => n + 4
  compressFrame := fun cap src contentSize =>
    let frame : Bytes :=
      if contentSize = 0 then (0 : Byte) :: src
      else (1 : Byte) :: UInt8.ofNat contentSize :: src
    if frame.length ≤ cap then some frame else none
  createDecompressionContext := some ()
  freeDecompressionContext := fun _ => false
  getFrameInfo := fun _ src =>
    match src with
    | flag :: n :: _ =>
      if flag = 1 then { isError := false, contentSize := n.toNat, consumed := 2, dctx := () }
      else { isError := false, contentSize := 0, consumed := 1, dctx := () }
    | [_] => { isError := false, contentSize := 0, consumed := 1, dctx := () }
    | [] => { isError := true, contentSize := 0, consumed := 0, dctx := () }
  decompress := fun _ cap src =>
    if src.length ≤ cap then { ec := 0, dst := src, srclen := src.length, dctx := () }
    else { ec := 1, dst := [], srclen := 0, dctx := () }

def demoLz4 : lz4_sock Unit :=
  { s := 1, outbuf := none, outlen := 0, inbuf := none, inlen := 0, dctx := () }

def demoMlog : mlog_sock := { s := 1, h := 3 }

/-- A process state with `queue` in the pipe and `allocs` as allocation script. -/
def demoWorld (queue : List Bytes) (allocs : List Bool) : World (List Bytes) :=
  { sys := { errno := 0, st := queue }, allocs := allocs, junk := fun _ => 170,
    live := 0, stderr := [], log := [] }

/-- The bytes of "hello". -/
def hello : Bytes := [104, 101, 108, 108, 111]

/-- Every allocation request still scripted succeeds. -/
def World.allocsSucceed (w : World σ) : Prop :=
  ∀ b ∈ w.allocs, b = true

/-! ## Reading the log -/

/-- The handles closed through `hclose`, in order. -/
def closes (log : List Event) : List Int :=
  log.filterMap fun e => match e with
    | Event.hclose h => some h
    | _ => none

/-- The number of `LZ4F_decompress` calls. -/
def decompressCalls (log : List Event) : Nat :=
  log.count Event.LZ4F_decompress

/-- The number of realloc calls made for buffer `b`. -/
def reallocCalls (b : Buf) (log : List Event) : Nat :=
  log.countP fun e => match e with
    | Event.realloc b1 _ _ => b1 = b
    | _ => false

/-! ## Sequences of calls on one compression layer -/

/-- One call on a compression layer, with its segments and deadline. -/
inductive Call where
  | send (iov : List iovec) (deadline : Int)
  | recv (iov : List iovec) (deadline : Int)

def Call.isSend : Call → Bool
  | Call.send _ _ => true
  | Call.recv _ _ => false

/-- The calls made one after the other on the same object; the run ends when
an assertion aborts the process. -/
def lz4_run (env : Env σ κ) (lz : LZ4F κ) : List Call → lz4_sock κ → World σ →
    lz4_sock κ × World σ
  | [], obj, w => (obj, w)
  | Call.send iov deadline :: rest, obj, w =>
    let r := lz4_msendv env lz obj iov deadline w
    match r.1.1 with
    | none => (r.1.2, r.2)
    | some _ => lz4_run env lz rest r.1.2 r.2
  | Call.recv iov deadline :: rest, obj, w =>
    let r := lz4_mrecvv env lz obj iov deadline w
    match r.1.1 with
    | none => (r.1.2.2, r.2)
    | some _ => lz4_run env lz rest r.1.2.2 r.2

/-! # Theorems -/

/-! ## Lemmas on segments and on the formatting -/

lemma iov_size_eq_length_flatten (iov : List iovec) : iov_size iov = iov.flatten.length := by
  induction iov with
  | nil => rfl
  | cons seg rest ih =>
    simp only [iov_size, List.map_cons, List.sum_cons, List.flatten_cons, List.length_append] at *
    omega

lemma iov_store_lengths (iov : List iovec) (data : Bytes) :
    (iov_store iov data).map List.length = iov.map List.length := by
  induction iov generalizing data with
  | nil => rfl
  | cons seg rest ih =>
    simp only [iov_store, List.map_cons, ih, List.length_append, List.length_take,
      List.length_drop, List.cons.injEq, and_true]
    omega

lemma iov_size_store (iov : List iovec) (data : Bytes) :
    iov_size (iov_store iov data) = iov_size iov := by
  simp [iov_size, iov_store_lengths]

/-- The segments after a store hold the data followed by what they held
beyond it, cut at their total length. -/
lemma iov_store_flatten (iov : List iovec) (data : Bytes) :
    (iov_store iov data).flatten =
      data.take iov.flatten.length ++ iov.flatten.drop data.length := by
  induction iov generalizing data with
  | nil => simp [iov_store]
  | cons seg rest ih =>
    simp only [iov_store, List.flatten_cons, ih, List.length_append, List.length_drop,
      List.append_assoc]
    rcases Nat.lt_or_ge data.length seg.length with h | h
    · have h1 : data.take seg.length = data := List.take_of_length_le (by omega)
      have h2 : data.drop seg.length = [] := List.drop_of_length_le (by omega)
      have h3 : data.take (seg.length + rest.flatten.length) = data :=
        List.take_of_length_le (by omega)
      have h4 : data.length - seg.length = 0 := by omega
      rw [h1, h2, h3, h4, List.take_nil, List.nil_append, List.drop_zero,
        List.drop_append_of_le_length (Nat.le_of_lt h)]
    · have h1 : seg.drop data.length = [] := List.drop_of_length_le h
      have h2 : (seg ++ rest.flatten).drop data.length =
          rest.flatten.drop (data.length - seg.length) := by
        rw [List.drop_append_eq_append_drop, h1, List.nil_append]
      rw [h1, h2, List.nil_append, ← List.append_assoc]
      congr 1
      rw [← List.take_append_drop seg.length (data.take (seg.length + rest.flatten.length))]
      congr 1
      · rw [List.take_take]; congr 1; omega
      · rw [List.drop_take]; congr 1; omega

lemma digitChar_ne_newline (d : Nat) : Nat.digitChar d ≠ '\n' := by
  rcases Nat.lt_or_ge d 16 with h | h
  · interval_cases d <;> decide
  · have hstar : Nat.digitChar d = '*' := by
      unfold Nat.digitChar
      iterate 16 rw [if_neg (by omega)]
    rw [hstar]
    decide

lemma toDigitsCore_no_newline (f : Nat) : ∀ (n : Nat) (acc : List Char),
    '\n' ∉ acc → '\n' ∉ Nat.toDigitsCore 10 f n acc := by
  induction f with
  | zero => intro n acc h; simpa [Nat.toDigitsCore] using h
  | succ f ih =>
    intro n acc h
    have hc : '\n' ∉ Nat.digitChar (n % 10) :: acc := by
      simp only [List.mem_cons, not_or]
      exact ⟨fun e => digitChar_ne_newline _ e.symm, h⟩
    simp only [Nat.toDigitsCore]
    split
    · exact hc
    · exact ih _ _ hc

lemma fmt_u_no_newline (n : Nat) : '\n' ∉ fmt_u n :=
  toDigitsCore_no_newline _ _ _ (by simp)

lemma fmt_d_left4_no_newline (i : Int) : '\n' ∉ fmt_d_left4 i := by
  have h1 : ∀ n, '\n' ∉ fmt_u n := fmt_u_no_newline
  have h2 : ('\n' : Char) ≠ '-' := by decide
  have h3 : ('\n' : Char) ≠ ' ' := by decide
  unfold fmt_d_left4 fmt_d
  split <;> simp [h1, h2, h3, List.mem_replicate]

lemma fmt_zu_right8_no_newline (n : Nat) : '\n' ∉ fmt_zu_right8 n := by
  have h3 : ('\n' : Char) ≠ ' ' := by decide
  simp [fmt_zu_right8, fmt_u_no_newline, h3, List.mem_replicate]

lemma hex_no_newline (bs : Bytes) : '\n' ∉ hex bs := by
  have h := digitChar_ne_newline
  simp only [hex, fmt_02x, List.mem_flatMap, List.mem_cons, List.mem_singleton, not_exists,
    not_and, not_or]
  intro b _
  exact ⟨fun e => h _ e.symm, fun e => h _ e.symm, List.not_mem_nil _⟩

lemma hex_length (bs : Bytes) : (hex bs).length = 2 * bs.length := by
  induction bs with
  | nil => rfl
  | cons b bs ih =>
    simp only [hex, List.flatMap_cons, List.length_append, List.length_cons] at *
    simp only [fmt_02x, List.length_cons, List.length_nil]
    omega

lemma hex_append (xs ys : Bytes) : hex (xs ++ ys) = hex xs ++ hex ys := by
  simp [hex, List.flatMap_append]

lemma mlog_send_dump_eq (iov : List iovec) : mlog_send_dump iov = hex iov.flatten := by
  induction iov with
  | nil => rfl
  | cons seg rest ih => simp [mlog_send_dump, ih, hex, List.flatMap_append]

lemma mlog_recv_dump_seg_eq (seg : Bytes) (t : Nat) :
    mlog_recv_dump_seg seg t = (hex (seg.take t), t - seg.length) := by
  induction seg generalizing t with
  | nil => simp [mlog_recv_dump_seg, hex]
  | cons b bs ih =>
    cases t with
    | zero => simp [mlog_recv_dump_seg, hex]
    | succ t =>
      simp only [mlog_recv_dump_seg, ih, List.take_succ_cons, List.length_cons, Prod.mk.injEq]
      constructor
      · simp [hex, List.flatMap_cons]
      · omega

/-- The trace loops of `mlog_mrecvv` print the first `toprint` bytes of the
concatenated segments. -/
lemma mlog_recv_dump_eq (iov : List iovec) (t : Nat) :
    mlog_recv_dump iov t = hex (iov.flatten.take t) := by
  induction iov generalizing t with
  | nil => simp [mlog_recv_dump, hex]
  | cons seg rest ih =>
    cases t with
    | zero => simp [mlog_recv_dump, hex]
    | succ t =>
      simp only [mlog_recv_dump, mlog_recv_dump_seg_eq, ih, List.flatten_cons,
        List.take_append_eq_append_take, hex_append]

/-! ## Generic dispatch (msock.c) -/

/-- C5. Generic dispatch. For msend, mrecv, msendv and mrecvv alike: when the
query of the handle for `msock_type` is absent the call returns -1 and the only
call it made is that query (no layer implementation is invoked); when the query
resolves to a descriptor `m`, the call returns the value of `m.msendv` (resp.
`m.mrecvv`) run on the same segments with the same deadline, leaves the system
as that call left it, and made exactly that one call after the query; msend and
mrecv pass the buffer as the single segment `(buf, len)`. -/
theorem generic_dispatch (env : Env σ κ) (s : Int) (buf : Bytes) (len : Nat)
    (iov : List iovec) (deadline : Int) (w : World σ) :
    ((env.hquery s TypeId.msock_type w.sys).1 = none →
      ((msend env s buf len deadline w).1 = -1 ∧
        (msend env s buf len deadline w).2.log = w.log ++ [Event.hquery s TypeId.msock_type]) ∧
      ((mrecv env s buf len deadline w).1 = (-1, buf) ∧
        (mrecv env s buf len deadline w).2.log = w.log ++ [Event.hquery s TypeId.msock_type]) ∧
      ((msendv env s iov deadline w).1 = -1 ∧
        (msendv env s iov deadline w).2.log = w.log ++ [Event.hquery s TypeId.msock_type]) ∧
      ((mrecvv env s iov deadline w).1 = (-1, iov) ∧
        (mrecvv env s iov deadline w).2.log = w.log ++ [Event.hquery s TypeId.msock_type])) ∧
    (∀ m : msock_vfs σ, (env.hquery s TypeId.msock_type w.sys).1 = some m →
      ((msend env s buf len deadline w).1 =
          (m.msendv [buf.take len] deadline (env.hquery s TypeId.msock_type w.sys).2).1 ∧
        (msend env s buf len deadline w).2.sys =
          (m.msendv [buf.take len] deadline (env.hquery s TypeId.msock_type w.sys).2).2 ∧
        (msend env s buf len deadline w).2.log = w.log ++
          [Event.hquery s TypeId.msock_type, Event.vfs_msendv s [buf.take len] deadline]) ∧
      ((mrecv env s buf len deadline w).1.1 =
          (m.mrecvv [buf.take len] deadline (env.hquery s TypeId.msock_type w.sys).2).1.sz ∧
        (mrecv env s buf len deadline w).1.2 =
          (iov_store [buf.take len]
            (m.mrecvv [buf.take len] deadline
              (env.hquery s TypeId.msock_type w.sys).2).1.data).flatten ++ buf.drop len ∧
        (mrecv env s buf len deadline w).2.sys =
          (m.mrecvv [buf.take len] deadline (env.hquery s TypeId.msock_type w.sys).2).2 ∧
        (mrecv env s buf len deadline w).2.log = w.log ++
          [Event.hquery s TypeId.msock_type, Event.vfs_mrecvv s [buf.take len] deadline]) ∧
      ((msendv env s iov deadline w).1 =
          (m.msendv iov deadline (env.hquery s TypeId.msock_type w.sys).2).1 ∧
        (msendv env s iov deadline w).2.sys =
          (m.msendv iov deadline (env.hquery s TypeId.msock_type w.sys).2).2 ∧
        (msendv env s iov deadline w).2.log = w.log ++
          [Event.hquery s TypeId.msock_type, Event.vfs_msendv s iov deadline]) ∧
      ((mrecvv env s iov deadline w).1.1 =
          (m.mrecvv iov deadline (env.hquery s TypeId.msock_type w.sys).2).1.sz ∧
        (mrecvv env s iov deadline w).1.2 =
          iov_store iov (m.mrecvv iov deadline (env.hquery s TypeId.msock_type w.sys).2).1.data ∧
        (mrecvv env s iov deadline w).2.sys =
          (m.mrecvv iov deadline (env.hquery s TypeId.msock_type w.sys).2).2 ∧
        (mrecvv env s iov deadline w).2.log = w.log ++
          [Event.hquery s TypeId.msock_type, Event.vfs_mrecvv s iov deadline])) := by
  constructor
  · intro h
    simp [msend, mrecv, msendv, mrecvv, hquery, h]
  · intro m h
    simp [msend, mrecv, msendv, mrecvv, hquery, vfs_msendv, vfs_mrecvv, h]

theorem generic_dispatch_witness :
    ((msend (demoEnv demoLz4 demoMlog) 7 hello 5 0 (demoWorld [] [])).1 = -1 ∧
      (mrecvv (demoEnv demoLz4 demoMlog) 7 [[0, 0], [0]] 0 (demoWorld [hello] [])).2.log =
        [Event.hquery 7 TypeId.msock_type]) ∧
    ((msendv (demoEnv demoLz4 demoMlog) 1 [[104, 101], [108, 108, 111]] 9
        (demoWorld [] [])).2.sys.st = [hello] ∧
      (mrecv (demoEnv demoLz4 demoMlog) 1 [0, 0, 0, 0, 0, 0] 5 9 (demoWorld [hello] [])).1 =
        (5, hello ++ [0])) := by
  have h1 := (generic_dispatch (demoEnv demoLz4 demoMlog) 7 hello 5 [[0, 0], [0]] 0
    (demoWorld [] [])).1 rfl
  have h2 := (generic_dispatch (demoEnv demoLz4 demoMlog) 7 hello 5 [[0, 0], [0]] 0
    (demoWorld [hello] [])).1 rfl
  have h3 := (generic_dispatch (demoEnv demoLz4 demoMlog) 1 [0, 0, 0, 0, 0, 0] 5
    [[104, 101], [108, 108, 111]] 9 (demoWorld [] [])).2 pipe_vfs rfl
  have h4 := (generic_dispatch (demoEnv demoLz4 demoMlog) 1 [0, 0, 0, 0, 0, 0] 5
    [[104, 101], [108, 108, 111]] 9 (demoWorld [hello] [])).2 pipe_vfs rfl
  refine ⟨⟨h1.1.1, h2.2.2.2.2⟩, ?_, ?_⟩
  · rw [h3.2.2.1.2.1]; rfl
  · exact Prod.ext (h4.2.1.1.trans rfl) (h4.2.1.2.1.trans rfl)

/-! ## The logging layer (mlog.c) -/

/-- C4. Pass-through transparency of the logging layer. `mlog_msendv` returns
the value of `msendv` on the owned handle for the same segments and deadline,
leaves errno and the channel as that call leaves them, and the calls it makes
are those of that one `msendv`. `mlog_mrecvv` does the same with `mrecvv`: a
length is returned as it is, a failure (a negative value, -1 in every function
of these files) is returned as the failure -1 with the error code untouched,
and the segments hold what the underlying receive left in them. -/
theorem mlog_pass_through (env : Env σ κ) (obj : mlog_sock) (iov : List iovec)
    (deadline : Int) (w : World σ) :
    ((mlog_msendv env obj iov deadline w).1 = (msendv env obj.s iov deadline w).1 ∧
      (mlog_msendv env obj iov deadline w).2.sys = (msendv env obj.s iov deadline w).2.sys ∧
      (mlog_msendv env obj iov deadline w).2.log = (msendv env obj.s iov deadline w).2.log) ∧
    ((mlog_mrecvv env obj iov deadline w).1.1 =
        (if (mrecvv env obj.s iov deadline w).1.1 < 0 then -1
          else (mrecvv env obj.s iov deadline w).1.1) ∧
      (mlog_mrecvv env obj iov deadline w).1.2 = (mrecvv env obj.s iov deadline w).1.2 ∧
      (mlog_mrecvv env obj iov deadline w).2.sys = (mrecvv env obj.s iov deadline w).2.sys ∧
      (mlog_mrecvv env obj iov deadline w).2.log = (mrecvv env obj.s iov deadline w).2.log) := by
  constructor
  · simp only [mlog_msendv, msendv, hquery, fprintf]
    cases env.hquery obj.s TypeId.msock_type w.sys with
    | mk c sys1 => cases c <;> simp [vfs_msendv]
  · simp only [mlog_mrecvv, fprintf]
    split <;> simp_all

/-- C10. Receive trace of the logging layer. When the underlying receive
succeeds with length `sz`, what `mlog_mrecvv` adds to stderr is one line: the
handle id, the direction, the byte count `sz`, then the hexadecimal encoding,
two digits per byte, of the first `sz` bytes of the concatenated segments as
the receive left them, closed by the only newline. When the underlying receive
fails, stderr is left as it was. -/
theorem mlog_receive_trace (env : Env σ κ) (obj : mlog_sock) (iov : List iovec)
    (deadline : Int) (w : World σ) :
    (0 ≤ (mrecvv env obj.s iov deadline w).1.1 →
      (mlog_mrecvv env obj iov deadline w).2.stderr = w.stderr ++
        ("handle: ".toList ++ fmt_d_left4 obj.h ++ " recv ".toList ++
          fmt_zu_right8 (mrecvv env obj.s iov deadline w).1.1.toNat ++ "B: 0x".toList ++
          hex ((mrecvv env obj.s iov deadline w).1.2.flatten.take
            (mrecvv env obj.s iov deadline w).1.1.toNat)) ++ ['\n'] ∧
      '\n' ∉ "handle: ".toList ++ fmt_d_left4 obj.h ++ " recv ".toList ++
          fmt_zu_right8 (mrecvv env obj.s iov deadline w).1.1.toNat ++ "B: 0x".toList ++
          hex ((mrecvv env obj.s iov deadline w).1.2.flatten.take
            (mrecvv env obj.s iov deadline w).1.1.toNat) ∧
      (hex ((mrecvv env obj.s iov deadline w).1.2.flatten.take
          (mrecvv env obj.s iov deadline w).1.1.toNat)).length =
        2 * min (mrecvv env obj.s iov deadline w).1.1.toNat (iov_size iov)) ∧
    ((mrecvv env obj.s iov deadline w).1.1 < 0 →
      (mlog_mrecvv env obj iov deadline w).2.stderr = w.stderr) := by
  have hst : (mrecvv env obj.s iov deadline w).2.stderr = w.stderr := by
    simp only [mrecvv, hquery]
    cases env.hquery obj.s TypeId.msock_type w.sys with
    | mk c sys1 => cases c <;> simp [vfs_mrecvv]
  have hsize : iov_size (mrecvv env obj.s iov deadline w).1.2 = iov_size iov := by
    simp only [mrecvv, hquery]
    cases env.hquery obj.s TypeId.msock_type w.sys with
    | mk c sys1 => cases c <;> simp [vfs_mrecvv, iov_size_store]
  constructor
  · intro h
    have hn : ¬ (mrecvv env obj.s iov deadline w).1.1 < 0 := not_lt.mpr h
    refine ⟨?_, ?_, ?_⟩
    · simp only [mlog_mrecvv, fprintf, hn, if_false, mlog_recv_dump_eq, hst]
      simp only [List.append_assoc]
    · have h1 := fmt_d_left4_no_newline obj.h
      have h2 := fmt_zu_right8_no_newline (mrecvv env obj.s iov deadline w).1.1.toNat
      have h3 := hex_no_newline ((mrecvv env obj.s iov deadline w).1.2.flatten.take
        (mrecvv env obj.s iov deadline w).1.1.toNat)
      simp only [List.mem_append, not_or]
      exact ⟨⟨⟨⟨⟨by decide, h1⟩, by decide⟩, h2⟩, by decide⟩, h3⟩
    · rw [hex_length, List.length_take, ← iov_size_eq_length_flatten, hsize]
  · intro h
    simp only [mlog_mrecvv, h, if_true, hst]

theorem mlog_receive_trace_witness :
    (mlog_mrecvv (demoEnv demoLz4 demoMlog) demoMlog [[0, 0], [0, 0, 0, 0]] 0
        (demoWorld [hello] [])).2.stderr =
        "handle: 3    recv        5B: 0x68656c6c6f".toList ++ ['\n'] ∧
    (mlog_mrecvv (demoEnv demoLz4 demoMlog) demoMlog [[0, 0], [0, 0, 0, 0]] 0
        (demoWorld [] [])).2.stderr = [] :=
  ⟨((mlog_receive_trace (demoEnv demoLz4 demoMlog) demoMlog [[0, 0], [0, 0, 0, 0]] 0
      (demoWorld [hello] [])).1 (by decide)).1.trans (by decide),
    (mlog_receive_trace (demoEnv demoLz4 demoMlog) demoMlog [[0, 0], [0, 0, 0, 0]] 0
      (demoWorld [] [])).2 (by decide)⟩

/-! ## Capability negotiation and teardown -/

/-- C6. Capability negotiation. For the compression layer and for the logging
layer, the query function of a layer object answers the layer own token with
the object, the token `msock_type` with the Message-Socket descriptor embedded
in the object, and every other token with NULL and errno ENOTSUP; the first
two answers leave errno alone. -/
theorem capability_negotiation (lzobj : lz4_sock κ) (mlobj : mlog_sock) (type : TypeId)
    (w : World σ) :
    (lz4_hquery lzobj TypeId.lz4_type w = (some (Ptr.obj lzobj), w) ∧
      lz4_hquery lzobj TypeId.msock_type w = (some (Ptr.mvfs lzobj), w) ∧
      (type ≠ TypeId.lz4_type → type ≠ TypeId.msock_type →
        (lz4_hquery lzobj type w).1 = none ∧
        (lz4_hquery lzobj type w).2.sys.errno = ENOTSUP)) ∧
    (mlog_hquery mlobj TypeId.mlog_type w = (some (Ptr.obj mlobj), w) ∧
      mlog_hquery mlobj TypeId.msock_type w = (some (Ptr.mvfs mlobj), w) ∧
      (type ≠ TypeId.mlog_type → type ≠ TypeId.msock_type →
        (mlog_hquery mlobj type w).1 = none ∧
        (mlog_hquery mlobj type w).2.sys.errno = ENOTSUP)) := by
  refine ⟨⟨rfl, rfl, ?_⟩, ⟨rfl, rfl, ?_⟩⟩
  · intro h1 h2
    simp [lz4_hquery, h1, h2, World.setErrno]
  · intro h1 h2
    simp [mlog_hquery, h1, h2, World.setErrno]

theorem capability_negotiation_witness :
    ((lz4_hquery demoLz4 TypeId.mlog_type (demoWorld [] [])).1 = none ∧
      (lz4_hquery demoLz4 TypeId.mlog_type (demoWorld [] [])).2.sys.errno = ENOTSUP) ∧
    ((mlog_hquery demoMlog (TypeId.foreign 0) (demoWorld [] [])).1 = none ∧
      (mlog_hquery demoMlog (TypeId.foreign 0) (demoWorld [] [])).2.sys.errno = ENOTSUP) :=
  ⟨(capability_negotiation demoLz4 demoMlog TypeId.mlog_type (demoWorld [] [])).1.2.2
      (by decide) (by decide),
    (capability_negotiation demoLz4 demoMlog (TypeId.foreign 0) (demoWorld [] [])).2.2.2
      (by decide) (by decide)⟩

/-- C7. Teardown of the owned handle. `mlog_hclose` and `lz4_hclose` (the
decompression context being released without error) call `hclose` once, on
the owned handle, and on no other handle. `mlog_stop` and `lz4_stop` on a
handle whose query for the layer own token gives the object return the handle
that object owns and call `hclose` on nothing; when that query is absent they
return -1, again closing nothing. -/
theorem teardown (env : Env σ κ) (lz : LZ4F κ) (lzobj : lz4_sock κ) (mlobj : mlog_sock)
    (s : Int) (deadline : Int) (w : World σ) :
    (closes (mlog_hclose env mlobj w).2.log = closes w.log ++ [mlobj.s] ∧
      (lz.freeDecompressionContext lzobj.dctx = false →
        closes (lz4_hclose env lz lzobj w).2.log = closes w.log ++ [lzobj.s])) ∧
    ((∀ obj : mlog_sock, (env.hquery s TypeId.mlog_type w.sys).1 = some obj →
        (mlog_stop env s w).1 = obj.s ∧ closes (mlog_stop env s w).2.log = closes w.log) ∧
      ((env.hquery s TypeId.mlog_type w.sys).1 = none →
        (mlog_stop env s w).1 = -1 ∧ closes (mlog_stop env s w).2.log = closes w.log)) ∧
    ((∀ obj : lz4_sock κ, (env.hquery s TypeId.lz4_type w.sys).1 = some obj →
        lz.freeDecompressionContext obj.dctx = false →
        (lz4_stop env lz s deadline w).1 = some obj.s ∧
        closes (lz4_stop env lz s deadline w).2.log = closes w.log) ∧
      ((env.hquery s TypeId.lz4_type w.sys).1 = none →
        (lz4_stop env lz s deadline w).1 = some (-1) ∧
        closes (lz4_stop env lz s deadline w).2.log = closes w.log)) := by
  refine ⟨⟨?_, ?_⟩, ⟨?_, ?_⟩, ⟨?_, ?_⟩⟩
  · simp only [mlog_hclose, hclose]
    split <;> simp [closes, free, List.filterMap_append]
  · intro hf
    simp only [lz4_hclose, hclose, hf]
    simp only [Bool.false_eq_true, if_false]
    split <;> simp [closes, free, World.record, List.filterMap_append]
  · intro obj h
    simp [mlog_stop, hquery, h, closes, free, List.filterMap_append]
  · intro h
    simp [mlog_stop, hquery, h, closes, List.filterMap_append]
  · intro obj h hf
    simp [lz4_stop, hquery, h, hf, closes, free, World.record, List.filterMap_append]
  · intro h
    simp [lz4_stop, hquery, h, closes, List.filterMap_append]

theorem teardown_witness :
    closes (lz4_hclose (demoEnv demoLz4 demoMlog) storeCodec demoLz4 (demoWorld [] [])).2.log
        = [1] ∧
    (mlog_stop (demoEnv demoLz4 demoMlog) 3 (demoWorld [] [])).1 = 1 ∧
    (mlog_stop (demoEnv demoLz4 demoMlog) 2 (demoWorld [] [])).1 = -1 ∧
    (lz4_stop (demoEnv demoLz4 demoMlog) storeCodec 2 0 (demoWorld [] [])).1 = some 1 ∧
    (lz4_stop (demoEnv demoLz4 demoMlog) storeCodec 3 0 (demoWorld [] [])).1 = some (-1) :=
  ⟨(teardown (demoEnv demoLz4 demoMlog) storeCodec demoLz4 demoMlog 3 0
      (demoWorld [] [])).1.2 rfl,
    ((teardown (demoEnv demoLz4 demoMlog) storeCodec demoLz4 demoMlog 3 0
      (demoWorld [] [])).2.1.1 demoMlog rfl).1,
    ((teardown (demoEnv demoLz4 demoMlog) storeCodec demoLz4 demoMlog 2 0
      (demoWorld [] [])).2.1.2 rfl).1,
    ((teardown (demoEnv demoLz4 demoMlog) storeCodec demoLz4 demoMlog 2 0
      (demoWorld [] [])).2.2.1 demoLz4 rfl rfl).1,
    ((teardown (demoEnv demoLz4 demoMlog) storeCodec demoLz4 demoMlog 3 0
      (demoWorld [] [])).2.2.2 rfl).1⟩

/-! ## The compression layer (lz4.c) -/

lemma reallocCalls_append (b : Buf) (l1 l2 : List Event) :
    reallocCalls b (l1 ++ l2) = reallocCalls b l1 + reallocCalls b l2 := by
  simp [reallocCalls, List.countP_append]

lemma msend_reallocCalls (env : Env σ κ) (s : Int) (buf : Bytes) (len : Nat) (deadline : Int)
    (w : World σ) (b : Buf) :
    reallocCalls b (msend env s buf len deadline w).2.log = reallocCalls b w.log := by
  simp only [msend, hquery]
  cases env.hquery s TypeId.msock_type w.sys with
  | mk c sys1 => cases c <;> simp [vfs_msendv, reallocCalls, List.countP_append, List.countP_cons]

lemma mrecv_reallocCalls (env : Env σ κ) (s : Int) (buf : Bytes) (len : Nat) (deadline : Int)
    (w : World σ) (b : Buf) :
    reallocCalls b (mrecv env s buf len deadline w).2.log = reallocCalls b w.log := by
  simp only [mrecv, hquery]
  cases env.hquery s TypeId.msock_type w.sys with
  | mk c sys1 => cases c <;> simp [vfs_mrecvv, reallocCalls, List.countP_append, List.countP_cons]

@[simp] lemma realloc_log (b : Buf) (p : Option Bytes) (n : Nat) (w : World σ) :
    (realloc b p n w).2.log = w.log ++ [Event.realloc b n w.nextAlloc.1] := by
  unfold realloc; split <;> simp_all

@[simp] lemma realloc_eq_none (b : Buf) (p : Option Bytes) (n : Nat) (w : World σ) :
    (realloc b p n w).1 = none ↔ w.nextAlloc.1 = false := by
  unfold realloc; split <;> simp_all

@[simp] lemma malloc_log (n : Nat) (w : World σ) :
    (malloc n w).2.log = w.log ++ [Event.malloc w.nextAlloc.1] := by
  unfold malloc; split <;> simp_all

@[simp] lemma malloc_eq_none (n : Nat) (w : World σ) :
    (malloc n w).1 = none ↔ w.nextAlloc.1 = false := by
  unfold malloc; split <;> simp_all

@[simp] lemma free_log (isNull : Bool) (w : World σ) :
    (free isNull w).log = w.log ++ [Event.free] := rfl

@[simp] lemma record_log (e : Event) (w : World σ) : (w.record e).log = w.log ++ [e] := rfl

@[simp] lemma setErrno_log (e : Int) (w : World σ) : (w.setErrno e).log = w.log := rfl

lemma realloc_some (b : Buf) (p : Option Bytes) (n : Nat) (w : World σ) (x : Bytes)
    (h : (realloc b p n w).1 = some x) : w.nextAlloc.1 = true := by
  by_contra hn
  have := (realloc_eq_none b p n w).mpr (by simpa using hn)
  simp [this] at h

lemma malloc_some (n : Nat) (w : World σ) (x : Bytes)
    (h : (malloc n w).1 = some x) : w.nextAlloc.1 = true := by
  by_contra hn
  have := (malloc_eq_none n w).mpr (by simpa using hn)
  simp [this] at h

lemma lz4_adjust_none (b : Buf) (buf : Option Bytes) (cur maxlen : Nat) (w : World σ) :
    (lz4_adjust b buf cur maxlen w).1 = none ↔ cur < maxlen ∧ w.nextAlloc.1 = false := by
  unfold lz4_adjust
  split
  · dsimp only
    split
    · simp_all
    · rename_i hra
      simp [realloc_some _ _ _ _ _ hra]
  · simp_all

lemma lz4_adjust_some (b : Buf) (buf : Option Bytes) (cur maxlen : Nat) (w : World σ)
    (grown : Option Bytes × Nat) (h : (lz4_adjust b buf cur maxlen w).1 = some grown) :
    grown.2 = (if cur < maxlen then maxlen else cur) ∧ (cur < maxlen → w.nextAlloc.1 = true) := by
  unfold lz4_adjust at h
  split at h
  · rename_i hlt
    dsimp only at h
    split at h
    · simp at h
    · rename_i newbuf hra
      simp only [Option.some.injEq] at h
      subst h
      exact ⟨by simp [hlt], fun _ => realloc_some _ _ _ _ _ hra⟩
  · rename_i hlt
    simp only [Option.some.injEq] at h
    subst h
    exact ⟨by simp [hlt], fun h => absurd h hlt⟩

lemma lz4_adjust_log (b : Buf) (buf : Option Bytes) (cur maxlen : Nat) (w : World σ) :
    (lz4_adjust b buf cur maxlen w).2.log =
      w.log ++ (if cur < maxlen then [Event.realloc b maxlen w.nextAlloc.1] else []) := by
  unfold lz4_adjust
  split
  · dsimp only
    split <;> simp
  · simp

lemma lz4_msendv_outlen (env : Env σ κ) (lz : LZ4F κ) (obj : lz4_sock κ) (iov : List iovec)
    (deadline : Int) (w : World σ) :
    (lz4_msendv env lz obj iov deadline w).1.2.outlen =
      (if obj.outlen < lz.compressFrameBound (iov_size iov) ∧ w.nextAlloc.1 = true
        then lz.compressFrameBound (iov_size iov) else obj.outlen) ∧
    (lz4_msendv env lz obj iov deadline w).1.2.inlen = obj.inlen := by
  simp only [lz4_msendv]
  split
  · rename_i h
    have := (lz4_adjust_none _ _ _ _ _).mp h
    simp [this.2]
  · rename_i grown h
    have hg := lz4_adjust_some _ _ _ _ _ _ h
    have hout : grown.2 = (if obj.outlen < lz.compressFrameBound (iov_size iov) ∧
        w.nextAlloc.1 = true then lz.compressFrameBound (iov_size iov) else obj.outlen) := by
      rw [hg.1]
      by_cases hlt : obj.outlen < lz.compressFrameBound (iov_size iov)
      · simp [hlt, hg.2 hlt]
      · simp [hlt]
    rw [← hout]
    (repeat' split) <;> exact ⟨rfl, rfl⟩

lemma reallocCalls_realloc (b b1 : Buf) (n : Nat) (ok : Bool) :
    reallocCalls b [Event.realloc b1 n ok] = if b1 = b then 1 else 0 := by
  simp [reallocCalls, List.countP_cons]

lemma lz4_msendv_reallocCalls (env : Env σ κ) (lz : LZ4F κ) (obj : lz4_sock κ)
    (iov : List iovec) (deadline : Int) (w : World σ) :
    reallocCalls Buf.outbuf (lz4_msendv env lz obj iov deadline w).2.log =
      reallocCalls Buf.outbuf w.log +
        (if obj.outlen < lz.compressFrameBound (iov_size iov) then 1 else 0) ∧
    reallocCalls Buf.inbuf (lz4_msendv env lz obj iov deadline w).2.log =
      reallocCalls Buf.inbuf w.log := by
  by_cases hlt : obj.outlen < lz.compressFrameBound (iov_size iov) <;>
    simp only [lz4_msendv, hlt, if_true, if_false] <;> (repeat' split) <;>
    simp only [msend_reallocCalls, reallocCalls_append, lz4_adjust_log, hlt, if_true, if_false,
      free_log, record_log, setErrno_log, malloc_log, List.append_nil] <;>
    simp [reallocCalls, List.countP_cons]

lemma lz4_mrecvv_inlen (env : Env σ κ) (lz : LZ4F κ) (obj : lz4_sock κ) (iov : List iovec)
    (deadline : Int) (w : World σ) :
    (lz4_mrecvv env lz obj iov deadline w).1.2.2.inlen =
      (if obj.inlen < lz.compressFrameBound (iov_size iov) ∧ w.nextAlloc.1 = true
        then lz.compressFrameBound (iov_size iov) else obj.inlen) ∧
    (lz4_mrecvv env lz obj iov deadline w).1.2.2.outlen = obj.outlen := by
  simp only [lz4_mrecvv]
  split
  · rename_i h
    have := (lz4_adjust_none _ _ _ _ _).mp h
    simp [this.2]
  · rename_i grown h
    have hg := lz4_adjust_some _ _ _ _ _ _ h
    have hin : grown.2 = (if obj.inlen < lz.compressFrameBound (iov_size iov) ∧
        w.nextAlloc.1 = true then lz.compressFrameBound (iov_size iov) else obj.inlen) := by
      rw [hg.1]
      by_cases hlt : obj.inlen < lz.compressFrameBound (iov_size iov)
      · simp [hlt, hg.2 hlt]
      · simp [hlt]
    rw [← hin]
    (repeat' split) <;> exact ⟨rfl, rfl⟩

lemma lz4_mrecvv_reallocCalls (env : Env σ κ) (lz : LZ4F κ) (obj : lz4_sock κ)
    (iov : List iovec) (deadline : Int) (w : World σ) :
    reallocCalls Buf.inbuf (lz4_mrecvv env lz obj iov deadline w).2.log =
      reallocCalls Buf.inbuf w.log +
        (if obj.inlen < lz.compressFrameBound (iov_size iov) then 1 else 0) ∧
    reallocCalls Buf.outbuf (lz4_mrecvv env lz obj iov deadline w).2.log =
      reallocCalls Buf.outbuf w.log := by
  by_cases hlt : obj.inlen < lz.compressFrameBound (iov_size iov) <;>
    simp only [lz4_mrecvv, hlt, if_true, if_false] <;> (repeat' split) <;>
    simp only [mrecv_reallocCalls, reallocCalls_append, lz4_adjust_log, hlt, if_true, if_false,
      free_log, record_log, setErrno_log, malloc_log, List.append_nil] <;>
    simp [reallocCalls, List.countP_cons]

lemma lz4_run_growth (env : Env σ κ) (lz : LZ4F κ) (calls : List Call) :
    ∀ (obj : lz4_sock κ) (w : World σ),
      obj.outlen ≤ (lz4_run env lz calls obj w).1.outlen ∧
      obj.inlen ≤ (lz4_run env lz calls obj w).1.inlen ∧
      reallocCalls Buf.outbuf (lz4_run env lz calls obj w).2.log ≤
        reallocCalls Buf.outbuf w.log + calls.countP Call.isSend ∧
      reallocCalls Buf.inbuf (lz4_run env lz calls obj w).2.log ≤
        reallocCalls Buf.inbuf w.log + calls.countP (fun c => !c.isSend) := by
  induction calls with
  | nil => intro obj w; simp [lz4_run]
  | cons c rest ih =>
    intro obj w
    cases c with
    | send iov deadline =>
      have ho := lz4_msendv_outlen env lz obj iov deadline w
      have hc := lz4_msendv_reallocCalls env lz obj iov deadline w
      have hstep : obj.outlen ≤ (lz4_msendv env lz obj iov deadline w).1.2.outlen := by
        rw [ho.1]; split <;> omega
      have hcnt : reallocCalls Buf.outbuf (lz4_msendv env lz obj iov deadline w).2.log ≤
          reallocCalls Buf.outbuf w.log + 1 := by
        rw [hc.1]; split <;> omega
      have ih1 := ih (lz4_msendv env lz obj iov deadline w).1.2
        (lz4_msendv env lz obj iov deadline w).2
      have hs : (Call.send iov deadline).isSend = true := rfl
      simp only [lz4_run, List.countP_cons, hs, if_true, Bool.not_true,
        Bool.false_eq_true, if_false, Nat.add_zero]
      split
      · try dsimp only
        refine ⟨hstep, by rw [ho.2], by omega, by rw [hc.2]; omega⟩
      · try dsimp only
        rw [ho.2, hc.2] at ih1
        refine ⟨by omega, ih1.2.1, by omega, ih1.2.2.2⟩
    | recv iov deadline =>
      have ho := lz4_mrecvv_inlen env lz obj iov deadline w
      have hc := lz4_mrecvv_reallocCalls env lz obj iov deadline w
      have hstep : obj.inlen ≤ (lz4_mrecvv env lz obj iov deadline w).1.2.2.inlen := by
        rw [ho.1]; split <;> omega
      have hcnt : reallocCalls Buf.inbuf (lz4_mrecvv env lz obj iov deadline w).2.log ≤
          reallocCalls Buf.inbuf w.log + 1 := by
        rw [hc.1]; split <;> omega
      have ih1 := ih (lz4_mrecvv env lz obj iov deadline w).1.2.2
        (lz4_mrecvv env lz obj iov deadline w).2
      have hs : (Call.recv iov deadline).isSend = false := rfl
      simp only [lz4_run, List.countP_cons, hs, if_true, Bool.not_false,
        Bool.false_eq_true, if_false, Nat.add_zero]
      split
      · try dsimp only
        refine ⟨by rw [ho.2], hstep, by rw [hc.2]; omega, by omega⟩
      · try dsimp only
        rw [ho.2, hc.2] at ih1
        refine ⟨ih1.1, by omega, ih1.2.2.1, by omega⟩

/-- C8. Buffer growth of the compression layer. One `lz4_msendv` never lowers
`outlen`; `outlen` changes only when the frame bound for the message length
exceeds it, and then, the reallocation succeeding, it becomes that bound; the
call reallocates `outbuf` at most once and `inbuf` never. The same holds for
`lz4_mrecvv` with `inlen`, `inbuf` and the frame bound for the capacity of the
caller segments. Over any sequence of calls on one object neither capacity
ever decreases, and the reallocations of each buffer number at most the calls
in that direction, hence at most the length of the sequence. -/
theorem lz4_buffer_growth (env : Env σ κ) (lz : LZ4F κ) (obj : lz4_sock κ)
    (iov : List iovec) (deadline : Int) (w : World σ) (calls : List Call) :
    (obj.outlen ≤ (lz4_msendv env lz obj iov deadline w).1.2.outlen ∧
      ((lz4_msendv env lz obj iov deadline w).1.2.outlen ≠ obj.outlen →
        obj.outlen < lz.compressFrameBound (iov_size iov)) ∧
      (obj.outlen < lz.compressFrameBound (iov_size iov) → w.nextAlloc.1 = true →
        (lz4_msendv env lz obj iov deadline w).1.2.outlen =
          lz.compressFrameBound (iov_size iov)) ∧
      reallocCalls Buf.outbuf (lz4_msendv env lz obj iov deadline w).2.log ≤
        reallocCalls Buf.outbuf w.log + 1 ∧
      reallocCalls Buf.inbuf (lz4_msendv env lz obj iov deadline w).2.log =
        reallocCalls Buf.inbuf w.log) ∧
    (obj.inlen ≤ (lz4_mrecvv env lz obj iov deadline w).1.2.2.inlen ∧
      ((lz4_mrecvv env lz obj iov deadline w).1.2.2.inlen ≠ obj.inlen →
        obj.inlen < lz.compressFrameBound (iov_size iov)) ∧
      (obj.inlen < lz.compressFrameBound (iov_size iov) → w.nextAlloc.1 = true →
        (lz4_mrecvv env lz obj iov deadline w).1.2.2.inlen =
          lz.compressFrameBound (iov_size iov)) ∧
      reallocCalls Buf.inbuf (lz4_mrecvv env lz obj iov deadline w).2.log ≤
        reallocCalls Buf.inbuf w.log + 1 ∧
      reallocCalls Buf.outbuf (lz4_mrecvv env lz obj iov deadline w).2.log =
        reallocCalls Buf.outbuf w.log) ∧
    (obj.outlen ≤ (lz4_run env lz calls obj w).1.outlen ∧
      obj.inlen ≤ (lz4_run env lz calls obj w).1.inlen ∧
      reallocCalls Buf.outbuf (lz4_run env lz calls obj w).2.log ≤
        reallocCalls Buf.outbuf w.log + calls.countP Call.isSend ∧
      reallocCalls Buf.inbuf (lz4_run env lz calls obj w).2.log ≤
        reallocCalls Buf.inbuf w.log + calls.countP (fun c => !c.isSend) ∧
      calls.countP Call.isSend ≤ calls.length ∧
      calls.countP (fun c => !c.isSend) ≤ calls.length) := by
  have hso := lz4_msendv_outlen env lz obj iov deadline w
  have hsc := lz4_msendv_reallocCalls env lz obj iov deadline w
  have hro := lz4_mrecvv_inlen env lz obj iov deadline w
  have hrc := lz4_mrecvv_reallocCalls env lz obj iov deadline w
  have hrun := lz4_run_growth env lz calls obj w
  refine ⟨⟨?_, ?_, ?_, ?_, hsc.2⟩, ⟨?_, ?_, ?_, ?_, hrc.2⟩,
    ⟨hrun.1, hrun.2.1, hrun.2.2.1, hrun.2.2.2, List.countP_le_length _, List.countP_le_length _⟩⟩
  · rw [hso.1]; split <;> omega
  · rw [hso.1]; split <;> simp_all
  · intro h1 h2; rw [hso.1]; simp [h1, h2]
  · rw [hsc.1]; split <;> omega
  · rw [hro.1]; split <;> omega
  · rw [hro.1]; split <;> simp_all
  · intro h1 h2; rw [hro.1]; simp [h1, h2]
  · rw [hrc.1]; split <;> omega

theorem lz4_buffer_growth_witness :
    (lz4_msendv (demoEnv demoLz4 demoMlog) storeCodec demoLz4 [hello] 0
        (demoWorld [] [])).1.2.outlen = 9 ∧
    (lz4_mrecvv (demoEnv demoLz4 demoMlog) storeCodec demoLz4 [[0, 0, 0], [0, 0]] 0
        (demoWorld [] [])).1.2.2.inlen = 9 :=
  ⟨(lz4_buffer_growth (demoEnv demoLz4 demoMlog) storeCodec demoLz4 [hello] 0
      (demoWorld [] []) []).1.2.2.1 (by decide) rfl,
    (lz4_buffer_growth (demoEnv demoLz4 demoMlog) storeCodec demoLz4 [[0, 0, 0], [0, 0]] 0
      (demoWorld [] []) []).2.1.2.2.1 (by decide) rfl⟩

lemma decompressCalls_append (l1 l2 : List Event) :
    decompressCalls (l1 ++ l2) = decompressCalls l1 + decompressCalls l2 := by
  simp [decompressCalls, List.count_append]

lemma mrecv_decompressCalls (env : Env σ κ) (s : Int) (buf : Bytes) (len : Nat)
    (deadline : Int) (w : World σ) :
    decompressCalls (mrecv env s buf len deadline w).2.log = decompressCalls w.log := by
  simp only [mrecv, hquery]
  cases env.hquery s TypeId.msock_type w.sys with
  | mk c sys1 => cases c <;> simp [vfs_mrecvv, decompressCalls, List.count_append, List.count_cons]

lemma lz4_adjust_decompressCalls (b : Buf) (buf : Option Bytes) (cur maxlen : Nat)
    (w : World σ) :
    decompressCalls (lz4_adjust b buf cur maxlen w).2.log = decompressCalls w.log := by
  rw [lz4_adjust_log]
  split <;> simp [decompressCalls, List.count_append, List.count_cons]

/-- C2. Oversize rejection. Whenever the input buffer has been adjusted and the
underlying receive has delivered a frame (`sz` bytes, `0 ≤ sz`) whose header,
read by `LZ4F_getFrameInfo` without error, declares a content size greater
than the total length of the caller segments, `lz4_mrecvv` returns -1 with
errno EMSGSIZE, `LZ4F_decompress` is not called, and the caller segments are
left as they were. -/
theorem lz4_oversize_rejection (env : Env σ κ) (lz : LZ4F κ) (obj : lz4_sock κ)
    (iov : List iovec) (deadline : Int) (w : World σ)
    (grown : Option Bytes × Nat)
    (hg : (lz4_adjust Buf.inbuf obj.inbuf obj.inlen
      (lz.compressFrameBound (iov_size iov)) w).1 = some grown)
    (sz : Int) (inbuf : Bytes) (w1 : World σ)
    (hr : mrecv env obj.s (grown.1.getD []) grown.2 deadline
      (lz4_adjust Buf.inbuf obj.inbuf obj.inlen
        (lz.compressFrameBound (iov_size iov)) w).2 = ((sz, inbuf), w1))
    (hsz : 0 ≤ sz)
    (hok : (lz.getFrameInfo obj.dctx (inbuf.take sz.toNat)).isError = false)
    (hbig : iov_size iov < (lz.getFrameInfo obj.dctx (inbuf.take sz.toNat)).contentSize) :
    (lz4_mrecvv env lz obj iov deadline w).1.1 = some (-1) ∧
    (lz4_mrecvv env lz obj iov deadline w).2.sys.errno = EMSGSIZE ∧
    decompressCalls (lz4_mrecvv env lz obj iov deadline w).2.log = decompressCalls w.log ∧
    (lz4_mrecvv env lz obj iov deadline w).1.2.1 = iov := by
  have hlog : decompressCalls w1.log = decompressCalls w.log := by
    have h := mrecv_decompressCalls env obj.s (grown.1.getD []) grown.2 deadline
      (lz4_adjust Buf.inbuf obj.inbuf obj.inlen (lz.compressFrameBound (iov_size iov)) w).2
    rw [hr, lz4_adjust_decompressCalls] at h
    exact h
  have hnz : (lz.getFrameInfo obj.dctx (inbuf.take sz.toNat)).contentSize ≠ 0 := by omega
  have hneg : ¬ sz < 0 := not_lt.mpr hsz
  simp only [lz4_mrecvv, hg, hr, hneg, hok, hnz, hbig, if_false, if_true, gt_iff_lt,
    Bool.false_eq_true]
  have hlog1 : List.count Event.LZ4F_decompress w1.log =
      List.count Event.LZ4F_decompress w.log := hlog
  and_intros
  all_goals first
    | trivial
    | rfl
    | simp [decompressCalls, World.setErrno, World.record, List.count_append, hlog1]

/-- C3. Malformed-header rejection. Whenever the input buffer has been adjusted
and the underlying receive has delivered a frame (`sz` bytes, `0 ≤ sz`) whose
header, read by `LZ4F_getFrameInfo` without error, declares no content size
(it reads as zero), then for every capacity of the caller segments
`lz4_mrecvv` returns -1 with errno ECONNRESET, `LZ4F_decompress` is not
called, and the caller segments are left as they were. -/
theorem lz4_malformed_header_rejection (env : Env σ κ) (lz : LZ4F κ) (obj : lz4_sock κ)
    (iov : List iovec) (deadline : Int) (w : World σ)
    (grown : Option Bytes × Nat)
    (hg : (lz4_adjust Buf.inbuf obj.inbuf obj.inlen
      (lz.compressFrameBound (iov_size iov)) w).1 = some grown)
    (sz : Int) (inbuf : Bytes) (w1 : World σ)
    (hr : mrecv env obj.s (grown.1.getD []) grown.2 deadline
      (lz4_adjust Buf.inbuf obj.inbuf obj.inlen
        (lz.compressFrameBound (iov_size iov)) w).2 = ((sz, inbuf), w1))
    (hsz : 0 ≤ sz)
    (hok : (lz.getFrameInfo obj.dctx (inbuf.take sz.toNat)).isError = false)
    (hzero : (lz.getFrameInfo obj.dctx (inbuf.take sz.toNat)).contentSize = 0) :
    (lz4_mrecvv env lz obj iov deadline w).1.1 = some (-1) ∧
    (lz4_mrecvv env lz obj iov deadline w).2.sys.errno = ECONNRESET ∧
    decompressCalls (lz4_mrecvv env lz obj iov deadline w).2.log = decompressCalls w.log ∧
    (lz4_mrecvv env lz obj iov deadline w).1.2.1 = iov := by
  have hlog : decompressCalls w1.log = decompressCalls w.log := by
    have h := mrecv_decompressCalls env obj.s (grown.1.getD []) grown.2 deadline
      (lz4_adjust Buf.inbuf obj.inbuf obj.inlen (lz.compressFrameBound (iov_size iov)) w).2
    rw [hr, lz4_adjust_decompressCalls] at h
    exact h
  have hneg : ¬ sz < 0 := not_lt.mpr hsz
  simp only [lz4_mrecvv, hg, hr, hneg, hok, hzero, if_false, if_true, Bool.false_eq_true]
  have hlog1 : List.count Event.LZ4F_decompress w1.log =
      List.count Event.LZ4F_decompress w.log := hlog
  and_intros
  all_goals first
    | trivial
    | rfl
    | simp [decompressCalls, World.setErrno, World.record, List.count_append, hlog1]

theorem lz4_oversize_rejection_witness :
    (lz4_mrecvv (demoEnv demoLz4 demoMlog) storeCodec demoLz4 [[0, 0], [0, 0]] 0
        (demoWorld [[1, 5, 104, 101, 108, 108, 111]] [])).1.1 = some (-1) ∧
    (lz4_mrecvv (demoEnv demoLz4 demoMlog) storeCodec demoLz4 [[0, 0], [0, 0]] 0
        (demoWorld [[1, 5, 104, 101, 108, 108, 111]] [])).2.sys.errno = EMSGSIZE ∧
    decompressCalls (lz4_mrecvv (demoEnv demoLz4 demoMlog) storeCodec demoLz4 [[0, 0], [0, 0]] 0
        (demoWorld [[1, 5, 104, 101, 108, 108, 111]] [])).2.log =
      decompressCalls (demoWorld [[1, 5, 104, 101, 108, 108, 111]] []).log ∧
    (lz4_mrecvv (demoEnv demoLz4 demoMlog) storeCodec demoLz4 [[0, 0], [0, 0]] 0
        (demoWorld [[1, 5, 104, 101, 108, 108, 111]] [])).1.2.1 = [[0, 0], [0, 0]] :=
  lz4_oversize_rejection (demoEnv demoLz4 demoMlog) storeCodec demoLz4 [[0, 0], [0, 0]] 0
    (demoWorld [[1, 5, 104, 101, 108, 108, 111]] [])
    (some (List.replicate 8 170), 8) rfl
    7 [1, 5, 104, 101, 108, 108, 111, 170]
    (mrecv (demoEnv demoLz4 demoMlog) 1 (List.replicate 8 170) 8 0
      (lz4_adjust Buf.inbuf demoLz4.inbuf demoLz4.inlen 8
        (demoWorld [[1, 5, 104, 101, 108, 108, 111]] [])).2).2
    rfl (by decide) rfl (by decide)

theorem lz4_malformed_header_rejection_witness :
    (lz4_mrecvv (demoEnv demoLz4 demoMlog) storeCodec demoLz4 [[0, 0], [0, 0]] 0
        (demoWorld [[0, 104, 101]] [])).1.1 = some (-1) ∧
    (lz4_mrecvv (demoEnv demoLz4 demoMlog) storeCodec demoLz4 [[0, 0], [0, 0]] 0
        (demoWorld [[0, 104, 101]] [])).2.sys.errno = ECONNRESET ∧
    decompressCalls (lz4_mrecvv (demoEnv demoLz4 demoMlog) storeCodec demoLz4 [[0, 0], [0, 0]] 0
        (demoWorld [[0, 104, 101]] [])).2.log =
      decompressCalls (demoWorld [[0, 104, 101]] []).log ∧
    (lz4_mrecvv (demoEnv demoLz4 demoMlog) storeCodec demoLz4 [[0, 0], [0, 0]] 0
        (demoWorld [[0, 104, 101]] [])).1.2.1 = [[0, 0], [0, 0]] :=
  lz4_malformed_header_rejection (demoEnv demoLz4 demoMlog) storeCodec demoLz4 [[0, 0], [0, 0]] 0
    (demoWorld [[0, 104, 101]] [])
    (some (List.replicate 8 170), 8) rfl
    3 [0, 104, 101, 170, 170, 170, 170, 170]
    (mrecv (demoEnv demoLz4 demoMlog) 1 (List.replicate 8 170) 8 0
      (lz4_adjust Buf.inbuf demoLz4.inbuf demoLz4.inlen 8
        (demoWorld [[0, 104, 101]] [])).2).2
    rfl (by decide) rfl rfl

/-- C9. Allocation failure in `lz4_start`. When the handle supports the
Message-Socket capability and the allocation of the layer object fails,
`lz4_start` returns -1, calls neither `LZ4F_createDecompressionContext` nor
`hcreate`, and leaves no block allocated; errno however ends as the
indeterminate value `err0` of the local `err`, which was never assigned on
this path, and not as the ENOMEM stored just before the jump to `error1`. -/
theorem lz4_start_alloc_failure (env : Env σ κ) (lz : LZ4F κ) (s : Int) (err0 : Int)
    (w : World σ) (m : msock_vfs σ)
    (hq : (env.hquery s TypeId.msock_type w.sys).1 = some m)
    (hfail : w.nextAlloc.1 = false) :
    (lz4_start env lz s err0 w).1 = some (-1, none) ∧
    (lz4_start env lz s err0 w).2.sys.errno = err0 ∧
    (lz4_start env lz s err0 w).2.live = w.live ∧
    (lz4_start env lz s err0 w).2.log =
      w.log ++ [Event.hquery s TypeId.msock_type, Event.malloc false] := by
  have h1 : (hquery env s TypeId.msock_type w).1 = some m := hq
  have h2 : (hquery env s TypeId.msock_type w).2.nextAlloc.1 = false := hfail
  have hlive : (hquery env s TypeId.msock_type w).2.live = w.live := rfl
  have hlog : (hquery env s TypeId.msock_type w).2.log =
      w.log ++ [Event.hquery s TypeId.msock_type] := rfl
  have h3 : (malloc_obj (hquery env s TypeId.msock_type w).2).1 = false := by
    simp [malloc_obj, malloc, h2]
  have h4 : (malloc_obj (hquery env s TypeId.msock_type w).2).2.live = w.live := by
    simp [malloc_obj, malloc, h2, hlive]
  have h5 : (malloc_obj (hquery env s TypeId.msock_type w).2).2.log =
      w.log ++ [Event.hquery s TypeId.msock_type, Event.malloc false] := by
    simp [malloc_obj, h2, hlog]
  have hgoal : lz4_start env lz s err0 w = (some (-1, none),
      ((malloc_obj (hquery env s TypeId.msock_type w).2).2.setErrno ENOMEM).setErrno err0) := by
    simp only [lz4_start, h1, h3]
  rw [hgoal]
  exact ⟨rfl, rfl, h4, h5⟩

theorem lz4_start_alloc_failure_witness :
    (lz4_start (demoEnv demoLz4 demoMlog) storeCodec 1 0 (demoWorld [] [false])).1 =
      some (-1, none) ∧
    (lz4_start (demoEnv demoLz4 demoMlog) storeCodec 1 0
      (demoWorld [] [false])).2.sys.errno ≠ ENOMEM :=
  ⟨(lz4_start_alloc_failure (demoEnv demoLz4 demoMlog) storeCodec 1 0 (demoWorld [] [false])
      pipe_vfs rfl rfl).1,
    fun h => absurd ((lz4_start_alloc_failure (demoEnv demoLz4 demoMlog) storeCodec 1 0
      (demoWorld [] [false]) pipe_vfs rfl rfl).2.1.symm.trans h) (by decide)⟩

/-! ## Round trip through the compression layer -/

lemma allocsSucceed_next (w : World σ) (h : w.allocsSucceed) :
    w.nextAlloc.1 = true ∧ ∀ b ∈ w.nextAlloc.2, b = true := by
  unfold World.allocsSucceed at h
  unfold World.nextAlloc
  split
  · simp
  · rename_i b rest heq
    rw [heq] at h
    exact ⟨h b (List.mem_cons_self _ _), fun c hc => h c (List.mem_cons_of_mem _ hc)⟩

lemma fresh_length (w : World σ) (off n : Nat) : (w.fresh off n).length = n := by
  simp [World.fresh]

lemma malloc_ok (n : Nat) (w : World σ) (h : w.allocsSucceed) :
    (malloc n w).1 = some (w.fresh 0 n) ∧ (malloc n w).2.sys = w.sys ∧
    (malloc n w).2.allocsSucceed := by
  have hn := allocsSucceed_next w h
  unfold malloc
  rw [if_pos hn.1]
  exact ⟨rfl, rfl, hn.2⟩

lemma lz4_adjust_ok (b : Buf) (buf : Option Bytes) (cur maxlen : Nat) (w : World σ)
    (h : w.allocsSucceed) :
    (∃ grown, (lz4_adjust b buf cur maxlen w).1 = some grown ∧ maxlen ≤ grown.2) ∧
    (lz4_adjust b buf cur maxlen w).2.sys = w.sys ∧
    (lz4_adjust b buf cur maxlen w).2.allocsSucceed := by
  have hn := allocsSucceed_next w h
  unfold lz4_adjust
  split
  · unfold realloc
    rw [if_pos hn.1]
    exact ⟨⟨_, rfl, le_refl _⟩, rfl, hn.2⟩
  · exact ⟨⟨_, rfl, by simpa using ‹¬cur < maxlen›⟩, rfl, h⟩

lemma mrecv_allocs (env : Env σ κ) (s : Int) (buf : Bytes) (len : Nat) (deadline : Int)
    (w : World σ) : (mrecv env s buf len deadline w).2.allocs = w.allocs := by
  simp only [mrecv, hquery]
  cases env.hquery s TypeId.msock_type w.sys with
  | mk c sys1 => cases c <;> simp [vfs_mrecvv]

lemma msend_congr (env : Env σ κ) (s : Int) (buf1 buf2 : Bytes) (len : Nat) (deadline : Int)
    (w : World σ) (h : buf1.take len = buf2.take len) :
    msend env s buf1 len deadline w = msend env s buf2 len deadline w := by
  simp only [msend, h]

/-- What `lz4_msendv` does when allocations succeed and the codec compresses
the gathered payload into the frame `F` within its bound: `F` goes to `msend`
on the owned handle. -/
lemma lz4_msendv_sends (env : Env σ κ) (lz : LZ4F κ) (obj : lz4_sock κ) (iov : List iovec)
    (deadline : Int) (w : World σ) (F : Bytes) (halloc : w.allocsSucceed)
    (hcomp : ∀ cap, lz.compressFrameBound iov.flatten.length ≤ cap →
      lz.compressFrame cap iov.flatten iov.flatten.length = some F)
    (hbound : F.length ≤ lz.compressFrameBound iov.flatten.length) :
    ∃ w4 : World σ, w4.sys = w.sys ∧
      (lz4_msendv env lz obj iov deadline w).1.1 =
        some (msend env obj.s F F.length deadline w4).1 ∧
      (lz4_msendv env lz obj iov deadline w).2 = (msend env obj.s F F.length deadline w4).2 := by
  have hlen := iov_size_eq_length_flatten iov
  obtain ⟨⟨grown, hg, hge⟩, hsys, hal⟩ :=
    lz4_adjust_ok Buf.outbuf obj.outbuf obj.outlen (lz.compressFrameBound (iov_size iov)) w halloc
  obtain ⟨hm, hmsys, -⟩ := malloc_ok (iov_size iov) _ hal
  have htake : (iov_copyallfrom ((lz4_adjust Buf.outbuf obj.outbuf obj.outlen
      (lz.compressFrameBound (iov_size iov)) w).2.fresh 0 (iov_size iov)) iov).take (iov_size iov)
      = iov.flatten := by
    simp [iov_copyallfrom, hlen]
  have hc : lz.compressFrame grown.2 iov.flatten (iov_size iov) = some F := by
    rw [hlen]; exact hcomp _ (by rw [← hlen]; exact hge)
  have hle : F.length ≤ grown.2 := by
    rw [hlen] at hge; omega
  refine ⟨free false ((malloc (iov_size iov) (lz4_adjust Buf.outbuf obj.outbuf obj.outlen
    (lz.compressFrameBound (iov_size iov)) w).2).2.record Event.LZ4F_compressFrame), ?_, ?_⟩
  · show (malloc _ _).2.sys = w.sys
    rw [hmsys, hsys]
  · have hcg := fun (rest : Bytes) (w4 : World σ) =>
      msend_congr env obj.s (F ++ rest) F F.length deadline w4 (by simp)
    simp only [lz4_msendv, hg, hm, htake, hc, hle, if_true, Option.getD_some, hcg]
    exact ⟨trivial, trivial⟩

/-- What `lz4_mrecvv` does when allocations succeed, the underlying receive
delivers the frame `F` and the codec decodes `F` to the non-empty payload `P`
that fits the caller segments. -/
lemma lz4_mrecvv_decodes (env : Env σ κ) (lz : LZ4F κ) (obj : lz4_sock κ) (iov : List iovec)
    (deadline : Int) (w : World σ) (P F : Bytes)
    (hne : P ≠ []) (hcap : P.length ≤ iov_size iov) (halloc : w.allocsSucceed)
    (hok : (lz.getFrameInfo obj.dctx F).isError = false)
    (hsize : (lz.getFrameInfo obj.dctx F).contentSize = P.length)
    (hec : (lz.decompress (lz.getFrameInfo obj.dctx F).dctx (iov_size iov)
      (F.drop (lz.getFrameInfo obj.dctx F).consumed)).ec = 0)
    (hdst : (lz.decompress (lz.getFrameInfo obj.dctx F).dctx (iov_size iov)
      (F.drop (lz.getFrameInfo obj.dctx F).consumed)).dst = P)
    (hsrc : (lz.decompress (lz.getFrameInfo obj.dctx F).dctx (iov_size iov)
      (F.drop (lz.getFrameInfo obj.dctx F).consumed)).srclen =
        F.length - (lz.getFrameInfo obj.dctx F).consumed)
    (grown : Option Bytes × Nat)
    (hg : (lz4_adjust Buf.inbuf obj.inbuf obj.inlen
      (lz.compressFrameBound (iov_size iov)) w).1 = some grown)
    (inbuf : Bytes) (w1 : World σ)
    (hr : mrecv env obj.s (grown.1.getD []) grown.2 deadline
      (lz4_adjust Buf.inbuf obj.inbuf obj.inlen
        (lz.compressFrameBound (iov_size iov)) w).2 = (((F.length : Int), inbuf), w1))
    (hin : inbuf.take F.length = F) :
    (lz4_mrecvv env lz obj iov deadline w).1.1 = some (P.length : Int) ∧
    (lz4_mrecvv env lz obj iov deadline w).1.2.1.flatten.take P.length = P ∧
    (lz4_mrecvv env lz obj iov deadline w).1.2.1.map List.length = iov.map List.length := by
  obtain ⟨-, -, hal⟩ := lz4_adjust_ok Buf.inbuf obj.inbuf obj.inlen
    (lz.compressFrameBound (iov_size iov)) w halloc
  have hal1 : (w1.record Event.LZ4F_getFrameInfo).allocsSucceed := by
    have h := mrecv_allocs env obj.s (grown.1.getD []) grown.2 deadline
      (lz4_adjust Buf.inbuf obj.inbuf obj.inlen (lz.compressFrameBound (iov_size iov)) w).2
    rw [hr] at h
    intro b hb
    exact hal b (h ▸ hb)
  obtain ⟨hm, -, -⟩ := malloc_ok (iov_size iov) _ hal1
  have hneg : ¬ ((F.length : Int) < 0) := by omega
  have hnz : P.length ≠ 0 := fun h => hne (List.length_eq_zero.mp h)
  have hgt : ¬ (P.length > iov_size iov) := by omega
  have htk : P.take (iov_size iov) = P := List.take_of_length_le hcap
  have hres : lz4_mrecvv env lz obj iov deadline w =
      ((some (P.length : Int), iov_copyallto iov
          (P ++ ((w1.record Event.LZ4F_getFrameInfo).fresh 0 (iov_size iov)).drop P.length),
        { s := obj.s, outbuf := obj.outbuf, outlen := obj.outlen,
          inbuf := grown.1.map fun _ => inbuf, inlen := grown.2,
          dctx := (lz.decompress (lz.getFrameInfo obj.dctx F).dctx (iov_size iov)
            (F.drop (lz.getFrameInfo obj.dctx F).consumed)).dctx }),
        free false ((malloc (iov_size iov) (w1.record Event.LZ4F_getFrameInfo)).2.record
          Event.LZ4F_decompress)) := by
    simp only [lz4_mrecvv, hg, hr, hneg, if_false, Int.toNat_ofNat, hin, hok, hsize, hnz, hgt,
      hm, hec, hdst, hsrc, htk, Bool.false_eq_true, ne_eq, not_true_eq_false]
  rw [hres]
  refine ⟨rfl, ?_, ?_⟩
  · show (iov_store iov _).flatten.take P.length = P
    rw [iov_store_flatten]
    have hl : (P ++ ((w1.record Event.LZ4F_getFrameInfo).fresh 0 (iov_size iov)).drop
        P.length).length = iov.flatten.length := by
      rw [List.length_append, List.length_drop, fresh_length, ← iov_size_eq_length_flatten]
      omega
    rw [List.take_of_length_le (le_of_eq hl), List.drop_of_length_le (le_of_eq hl.symm),
      List.append_nil, List.take_left']
    rfl
  · exact iov_store_lengths iov _

/-- C1, amended. Round trip through the compression layer, for a non-empty
payload. Let `P` be non-empty, gathered from the sender segments `segsS`, let
allocations succeed on both sides, and let the codec be correct on `P`: it
compresses `P`, with content size `|P|`, into a frame `F` within its bound, and
from the receiver context it reads the header of `F` without error as declaring
`|P|` and decodes the rest of `F` to `P`, consuming it all. Then `lz4_msendv`
hands exactly `F`, as one message of one segment, to the Message-Socket
descriptor of the owned handle and returns what that returns; and `lz4_mrecvv`,
on segments `segsR` of total capacity at least `|P|` and with the underlying
receive delivering `F`, returns `|P|`, leaves `P` in the first `|P|` bytes of the
segments (all of them when the capacity is `|P|`) and keeps their lengths. -/
theorem lz4_roundtrip (lz : LZ4F κ)
    (envS : Env σ κ) (objS : lz4_sock κ) (segsS : List iovec) (dS : Int) (wS : World σ)
    (envR : Env σ κ) (objR : lz4_sock κ) (segsR : List iovec) (dR : Int) (wR : World σ)
    (P F : Bytes)
    (hP : iov_copyallfrom [] segsS = P) (hne : P ≠ []) (hcap : P.length ≤ iov_size segsR)
    (hallocS : wS.allocsSucceed) (hallocR : wR.allocsSucceed)
    (hcomp : ∀ cap, lz.compressFrameBound P.length ≤ cap →
      lz.compressFrame cap P P.length = some F)
    (hbound : F.length ≤ lz.compressFrameBound P.length)
    (hok : (lz.getFrameInfo objR.dctx F).isError = false)
    (hsize : (lz.getFrameInfo objR.dctx F).contentSize = P.length)
    (hec : (lz.decompress (lz.getFrameInfo objR.dctx F).dctx (iov_size segsR)
      (F.drop (lz.getFrameInfo objR.dctx F).consumed)).ec = 0)
    (hdst : (lz.decompress (lz.getFrameInfo objR.dctx F).dctx (iov_size segsR)
      (F.drop (lz.getFrameInfo objR.dctx F).consumed)).dst = P)
    (hsrc : (lz.decompress (lz.getFrameInfo objR.dctx F).dctx (iov_size segsR)
      (F.drop (lz.getFrameInfo objR.dctx F).consumed)).srclen =
        F.length - (lz.getFrameInfo objR.dctx F).consumed)
    (mS : msock_vfs σ) (hqS : (envS.hquery objS.s TypeId.msock_type wS.sys).1 = some mS)
    (grown : Option Bytes × Nat)
    (hg : (lz4_adjust Buf.inbuf objR.inbuf objR.inlen
      (lz.compressFrameBound (iov_size segsR)) wR).1 = some grown)
    (inbuf : Bytes) (w1 : World σ)
    (hr : mrecv envR objR.s (grown.1.getD []) grown.2 dR
      (lz4_adjust Buf.inbuf objR.inbuf objR.inlen
        (lz.compressFrameBound (iov_size segsR)) wR).2 = (((F.length : Int), inbuf), w1))
    (hin : inbuf.take F.length = F) :
    ((lz4_msendv envS lz objS segsS dS wS).1.1 =
        some (mS.msendv [F] dS (envS.hquery objS.s TypeId.msock_type wS.sys).2).1 ∧
      (lz4_msendv envS lz objS segsS dS wS).2.sys =
        (mS.msendv [F] dS (envS.hquery objS.s TypeId.msock_type wS.sys).2).2 ∧
      (lz4_msendv envS lz objS segsS dS wS).2.log.getLast? =
        some (Event.vfs_msendv objS.s [F] dS)) ∧
    ((lz4_mrecvv envR lz objR segsR dR wR).1.1 = some (P.length : Int) ∧
      (lz4_mrecvv envR lz objR segsR dR wR).1.2.1.flatten.take P.length = P ∧
      (iov_size segsR = P.length → (lz4_mrecvv envR lz objR segsR dR wR).1.2.1.flatten = P) ∧
      (lz4_mrecvv envR lz objR segsR dR wR).1.2.1.map List.length =
        segsR.map List.length) := by
  have hflat : segsS.flatten = P := by
    simpa [iov_copyallfrom] using hP
  constructor
  · obtain ⟨w4, hsys, h1, h2⟩ := lz4_msendv_sends envS lz objS segsS dS wS F hallocS
      (by rw [hflat]; exact hcomp) (by rw [hflat]; exact hbound)
    rw [h1, h2]
    simp only [msend, hquery, vfs_msendv, List.take_length, hsys, hqS]
    simp
  · have h := lz4_mrecvv_decodes envR lz objR segsR dR wR P F hne hcap hallocR hok hsize hec
      hdst hsrc grown hg inbuf w1 hr hin
    refine ⟨h.1, h.2.1, ?_, h.2.2⟩
    intro heq
    have hl : (lz4_mrecvv envR lz objR segsR dR wR).1.2.1.flatten.length = P.length := by
      rw [← iov_size_eq_length_flatten, iov_size, h.2.2, ← heq]
      rfl
    rw [← hl, List.take_length] at h
    exact h.2.1

theorem lz4_roundtrip_witness :
    (lz4_msendv (demoEnv demoLz4 demoMlog) storeCodec demoLz4 [[104, 101], [108, 108, 111]] 0
        (demoWorld [] [])).2.sys.st = [[1, 5, 104, 101, 108, 108, 111]] ∧
    (lz4_mrecvv (demoEnv demoLz4 demoMlog) storeCodec demoLz4 [[0, 0, 0], [0, 0, 0]] 0
        (demoWorld [[1, 5, 104, 101, 108, 108, 111]] [])).1.1 = some 5 ∧
    (lz4_mrecvv (demoEnv demoLz4 demoMlog) storeCodec demoLz4 [[0, 0, 0], [0, 0, 0]] 0
        (demoWorld [[1, 5, 104, 101, 108, 108, 111]] [])).1.2.1.flatten.take 5 = hello := by
  have T := lz4_roundtrip storeCodec
    (demoEnv demoLz4 demoMlog) demoLz4 [[104, 101], [108, 108, 111]] 0 (demoWorld [] [])
    (demoEnv demoLz4 demoMlog) demoLz4 [[0, 0, 0], [0, 0, 0]] 0
    (demoWorld [[1, 5, 104, 101, 108, 108, 111]] [])
    hello [1, 5, 104, 101, 108, 108, 111]
    rfl (by decide) (by decide)
    (fun _ h => (List.not_mem_nil _ h).elim) (fun _ h => (List.not_mem_nil _ h).elim)
    (fun cap h => by
      have h7 : 7 ≤ cap := le_trans (by decide) h
      simp [storeCodec, hello, h7])
    (by decide) rfl rfl rfl rfl rfl
    pipe_vfs rfl
    (some (List.replicate 10 170), 10) rfl
    [1, 5, 104, 101, 108, 108, 111, 170, 170, 170]
    (mrecv (demoEnv demoLz4 demoMlog) 1 (List.replicate 10 170) 10 0
      (lz4_adjust Buf.inbuf demoLz4.inbuf demoLz4.inlen 10
        (demoWorld [[1, 5, 104, 101, 108, 108, 111]] [])).2).2
    rfl rfl
  exact ⟨by rw [T.1.2.1]; rfl, T.2.1, T.2.2.1⟩

/-- C1 as stated fails for the empty payload. Sent through the compression
layer over the pipe, the empty payload becomes the frame `[0]`, whose header
declares no content size (the codec decodes that frame to the empty payload);
receiving that frame into segments of capacity 2 returns -1 with errno
ECONNRESET instead of the length 0, and `LZ4F_decompress` is never called. -/
theorem lz4_roundtrip_empty_payload_fails :
    iov_copyallfrom [] [] = ([] : Bytes) ∧
    (lz4_msendv (demoEnv demoLz4 demoMlog) storeCodec demoLz4 [] 0
        (demoWorld [] [])).1.1 = some 0 ∧
    (lz4_msendv (demoEnv demoLz4 demoMlog) storeCodec demoLz4 [] 0
        (demoWorld [] [])).2.sys.st = [[0]] ∧
    (storeCodec.getFrameInfo () [0]).isError = false ∧
    (storeCodec.decompress () 2 (List.drop (storeCodec.getFrameInfo () [0]).consumed [0])).ec = 0 ∧
    (storeCodec.decompress () 2 (List.drop (storeCodec.getFrameInfo () [0]).consumed [0])).dst
      = [] ∧
    (lz4_mrecvv (demoEnv demoLz4 demoMlog) storeCodec demoLz4 [[0, 0]] 0
        (demoWorld [[0]] [])).1.1 = some (-1) ∧
    (lz4_mrecvv (demoEnv demoLz4 demoMlog) storeCodec demoLz4 [[0, 0]] 0
        (demoWorld [[0]] [])).2.sys.errno = ECONNRESET ∧
    decompressCalls (lz4_mrecvv (demoEnv demoLz4 demoMlog) storeCodec demoLz4 [[0, 0]] 0
        (demoWorld [[0]] [])).2.log = 0 := by
  refine ⟨rfl, rfl, rfl, rfl, rfl, rfl, rfl, rfl, rfl⟩

end Dsock
